import Mathlib

/-!
Verification development for the `hook_odyssey` SDK.

This file shallowly embeds the order-signing core of the SDK:
the fixed-point codec of `types.py` (`from_decimal` / `to_decimal`),
the `PlaceOrderInput` data model, the environment table of `config.py`,
the EIP-712 typed-data encoding, keccak-256 hashing and deterministic
ECDSA signing pipeline of `signing.py` (`OdysseySigner.sign_order` /
`get_order_hash`), the stub signer of `signer.py`, the key checks of
`client.py.place_order`, and the lock-guarded lazy session establishment
of `graphql.py.GraphQLClient.subscribe`.

Machine integers are modelled as `Nat` with explicit `% 2 ^ w` masking;
`Decimal` values are modelled as the `(sign, int, exp)` triples of
CPython `_pydecimal`, with the arithmetic of the default decimal
context (28 significant digits, `ROUND_HALF_EVEN`); byte strings are
`List Nat` with each element `< 256`.
-/

/- ==================== Python decimal arithmetic (default context) ==================== -/

/-- The venue fixed-point scale, `10 ** 18`. -/
def scaleFactor : ℕ := 10 ^ 18

/-- Truncation of a rational toward zero: the semantics of Python
`int(...)` applied to an exact value, the reference point against which
the truncation claims are stated. -/
def ratTrunc (q : ℚ) : ℤ := Int.tdiv q.num q.den

/-- A finite Python `Decimal` as CPython `_pydecimal` stores it: the
`(sign, int, exp)` triple, with the digit string as a natural-number
coefficient and `sign = true` for negative.  The value is
`±coeff · 10 ^ exp`.  The special values (NaNs and infinities) never
arise in this SDK's arithmetic and are not modelled. -/
structure PyDecimal where
  sign : Bool
  coeff : ℕ
  exp : ℤ
  deriving DecidableEq, Repr

/-- The default decimal context precision, `getcontext().prec = 28`
significant digits (the SDK never changes the context). -/
def ctxPrec : ℕ := 28

/-- `len(str(coeff))` for `coeff < 10 ^ fuel`: the number of decimal
digits of a coefficient, with one digit for `0`. -/
def decDigitsAux : ℕ → ℕ → ℕ
  | 0, _ => 1
  | f + 1, n => if n < 10 then 1 else decDigitsAux f (n / 10) + 1

/-- Digit count of a coefficient.  Every coefficient in this development
is far below `10 ^ 64`, so the fuel of 64 is never exhausted. -/
def decDigits (n : ℕ) : ℕ := decDigitsAux 64 n

/-- The rounding step of `Decimal._fix` when the coefficient has
`prec + k` digits, `k ≥ 1`: keep the leading digits `coeff / 10 ^ k`
and round half-even on the dropped tail `coeff % 10 ^ k` (round up when
the tail exceeds half a unit in the last kept place, or equals half
with an odd kept digit); on a carry out of the `prec`-digit range drop
the resulting trailing zero and bump the exponent once more. -/
def pyFixRound (x : PyDecimal) (k : ℕ) : PyDecimal :=
  if 5 * 10 ^ (k - 1) < x.coeff % 10 ^ k ∨
      (x.coeff % 10 ^ k = 5 * 10 ^ (k - 1) ∧ (x.coeff / 10 ^ k) % 2 = 1) then
    if decDigits (x.coeff / 10 ^ k + 1) ≤ ctxPrec then
      ⟨x.sign, x.coeff / 10 ^ k + 1, x.exp + k⟩
    else
      ⟨x.sign, (x.coeff / 10 ^ k + 1) / 10, x.exp + k + 1⟩
  else ⟨x.sign, x.coeff / 10 ^ k, x.exp + k⟩

/-- `Decimal._fix` under the default context: round the coefficient to
`prec = 28` significant digits (`ROUND_HALF_EVEN`), carrying into the
exponent.  Every exponent in this development stays within a few dozen
of zero, far inside `(Emin, Emax) = (-999999, 999999)`, so the
subnormal and overflow branches of `_pydecimal.Decimal._fix` are
unreachable and its exponent clamps are identities; they are omitted. -/
def pyFix (x : PyDecimal) : PyDecimal :=
  if x.coeff ≠ 0 ∧ ctxPrec < decDigits x.coeff then
    pyFixRound x (decDigits x.coeff - ctxPrec)
  else x

/-- `Decimal.__mul__`: exact coefficient product and exponent sum,
rounded by `_fix` (the multiply-by-zero and multiply-by-one shortcuts
of `_pydecimal` produce this same triple). -/
def pyMul (a b : PyDecimal) : PyDecimal :=
  pyFix ⟨xor a.sign b.sign, a.coeff * b.coeff, a.exp + b.exp⟩

/-- `Decimal.__int__`: truncate toward zero by dropping the fractional
digits of the digit string. -/
def PyDecimal.toInt (x : PyDecimal) : ℤ :=
  (if x.sign then -1 else 1) *
    ((if 0 ≤ x.exp then x.coeff * 10 ^ x.exp.toNat else x.coeff / 10 ^ (-x.exp).toNat : ℕ) : ℤ)

/-- The exact rational value of a `Decimal` (what `Decimal.__eq__`
compares). -/
def PyDecimal.toRat (x : PyDecimal) : ℚ :=
  (if x.sign then -1 else 1) * (x.coeff : ℚ) * (10 : ℚ) ^ x.exp

/-- `Decimal(v)` for an integer `v`: exact conversion, all digits
kept. -/
def PyDecimal.ofInt (v : ℤ) : PyDecimal :=
  ⟨decide (v < 0), v.natAbs, 0⟩

/-- The trailing-zero stripping loop of `Decimal.__truediv__` on an
exact quotient: while the exponent is below the ideal exponent and the
coefficient ends in a zero, shift one zero out.  The loop runs at most
`ideal - exp` times, which never exceeds 48 in this development, so the
fuel of 64 is never exhausted. -/
def pyStrip : ℕ → ℕ → ℤ → ℤ → ℕ × ℤ
  | 0, c, e, _ => (c, e)
  | f + 1, c, e, ideal =>
    if e < ideal ∧ c % 10 = 0 then pyStrip f (c / 10) (e + 1) ideal else (c, e)

/-- The shift of `Decimal.__truediv__`: long division is carried out to
`prec + 1` significant digits. -/
def pyDivShift (a b : PyDecimal) : ℤ :=
  (decDigits b.coeff : ℤ) - (decDigits a.coeff : ℤ) + (ctxPrec : ℤ) + 1

/-- The tail of `Decimal.__truediv__` after the shifted long division
`num / den`: when inexact, nudge a quotient ending in 0 or 5 up by one
(the sticky adjustment that makes the later half-even rounding
correct); when exact, strip trailing zeros toward the ideal exponent;
then `_fix`. -/
def pyDivCore (sign : Bool) (num den : ℕ) (e ideal : ℤ) : PyDecimal :=
  if num % den = 0 then
    pyFix ⟨sign, (pyStrip 64 (num / den) e ideal).1, (pyStrip 64 (num / den) e ideal).2⟩
  else if (num / den) % 5 = 0 then pyFix ⟨sign, num / den + 1, e⟩
  else pyFix ⟨sign, num / den, e⟩

/-- `Decimal.__truediv__` under the default context (the divisor is
never zero in this development, so the division-by-zero signal is not
modelled). -/
def pyDiv (a b : PyDecimal) : PyDecimal :=
  if a.coeff = 0 then pyFix ⟨xor a.sign b.sign, 0, a.exp - b.exp⟩
  else if 0 ≤ pyDivShift a b then
    pyDivCore (xor a.sign b.sign) (a.coeff * 10 ^ (pyDivShift a b).toNat) b.coeff
      (a.exp - b.exp - pyDivShift a b) (a.exp - b.exp)
  else
    pyDivCore (xor a.sign b.sign) a.coeff (b.coeff * 10 ^ (-pyDivShift a b).toNat)
      (a.exp - b.exp - pyDivShift a b) (a.exp - b.exp)

/- ==================== types.py : fixed-point codec ==================== -/

/-- `Decimal(10**18)`. -/
def dec10pow18 : PyDecimal := ⟨false, 10 ^ 18, 0⟩

/-- `types.from_decimal`: `int(value * Decimal(10**18))`, the
multiplication performed by Python decimal arithmetic under the default
context (28 significant digits, rounded half-even). -/
def from_decimal (value : PyDecimal) : ℤ := (pyMul value dec10pow18).toInt

/-- `types.to_decimal`: `Decimal(value) / Decimal(10**18)`, the
division performed by Python decimal arithmetic under the default
context. -/
def to_decimal (value : ℤ) : PyDecimal := pyDiv (PyDecimal.ofInt value) dec10pow18

/- ==================== bytes, hex and integer-string helpers ==================== -/

/-- Value of one hex digit character. -/
def hexDigitVal (c : Char) : ℕ :=
  if 97 ≤ c.toNat then c.toNat - 87
  else if 65 ≤ c.toNat then c.toNat - 55
  else c.toNat - 48

/-- Drop a leading `0x` from a string, if present: the semantics of
Python `str.removeprefix("0x")`. -/
def stripHexPrefix (s : String) : String :=
  match s.data with
  | '0' :: 'x' :: rest => String.mk rest
  | _ => s

/-- Numeric value of a hex string (with or without `0x`). -/
def hexStringToNat (s : String) : ℕ :=
  (stripHexPrefix s).toList.foldl (fun acc c => acc * 16 + hexDigitVal c) 0

/-- Numeric value of a decimal digit string. -/
def decStringToNat (s : String) : ℕ :=
  s.toList.foldl (fun acc c => acc * 10 + (c.toNat - 48)) 0

/-- Does the string start with `0x`? -/
def hasHexPrefix (s : String) : Bool :=
  match s.data with
  | '0' :: 'x' :: _ => true
  | _ => false

/-- Python `int(value, 0)` on the non-negative integer strings this SDK
produces: a `0x` prefix selects base 16, otherwise base 10. -/
def parseIntBase0 (s : String) : ℕ :=
  if hasHexPrefix s then hexStringToNat s else decStringToNat s

/-- A hex string such as `0x2227…` decoded to its list of bytes (two hex
digits per byte). -/
def hexStringToBytes (s : String) : List ℕ :=
  let cs := (stripHexPrefix s).toList
  (List.range (cs.length / 2)).map
    (fun i => 16 * hexDigitVal (cs.getD (2 * i) '0') + hexDigitVal (cs.getD (2 * i + 1) '0'))

/-- The sixteen lowercase hex digit characters. -/
def hexChars : List Char :=
  "0123456789abcdef".data

/-- One byte as two lowercase hex characters. -/
def byteToHex (b : ℕ) : List Char :=
  [hexChars.getD (b / 16 % 16) '0', hexChars.getD (b % 16) '0']

/-- A byte list rendered as a lowercase hex string (Python `bytes.hex()`). -/
def bytesToHex (bs : List ℕ) : String :=
  String.mk (bs.foldr (fun b acc => byteToHex b ++ acc) [])

/-- `n` as `w` bytes, little-endian (the keccak lane encoding). -/
def natToBytesLE : ℕ → ℕ → List ℕ
  | 0, _ => []
  | w + 1, n => n % 256 :: natToBytesLE w (n / 256)

/-- `n` as `w` bytes, big-endian (the EIP-712 / ABI word encoding). -/
def natToBytesBE (w n : ℕ) : List ℕ :=
  (natToBytesLE w n).reverse

/-- Big-endian bytes back to a number. -/
def bytesToNatBE (bs : List ℕ) : ℕ :=
  bs.foldl (fun acc b => acc * 256 + b) 0

/-- The bytes of an ASCII string. -/
def strToBytes (s : String) : List ℕ := s.toList.map Char.toNat

/- ==================== types.py : enums and PlaceOrderInput ==================== -/

/-- `types.OrderDirection`. -/
inductive OrderDirection
  | BUY
  | SELL
  deriving DecidableEq, Repr

/-- `types.OrderType`. -/
inductive OrderType
  | MARKET
  | LIMIT
  deriving DecidableEq, Repr

/-- `types.TimeInForce`. -/
inductive TimeInForce
  | GTC
  | GTD
  deriving DecidableEq, Repr

/-- `types.PlaceOrderInput` dataclass.  Big integers are represented as
decimal strings, exactly as the dataclass stores them ("BigInts are
represented as strings for go marshalling"); optional fields keep the
declared `Optional` types. -/
structure PlaceOrderInput where
  marketHash : String
  instrumentHash : String
  subaccount : String
  orderType : OrderType
  direction : OrderDirection
  size : String
  limitPrice : Option String
  volatilityBips : Option ℤ
  timeInForce : TimeInForce
  expiration : Option ℕ
  nonce : String
  postOnly : Option Bool
  reduceOnly : Option Bool
  deriving DecidableEq, Repr

/-- `PlaceOrderInput.__init__`: the constructor takes `Decimal` sizes and
integer subaccount/nonce and stores them as decimal strings via
`str(...)` and `str(from_decimal(...))`; `postOnly` and `reduceOnly`
default to `False` (so are always present after construction). -/
def PlaceOrderInput.create (marketHash instrumentHash : String)
    (subaccount : ℤ) (orderType : OrderType) (direction : OrderDirection)
    (size : PyDecimal) (timeInForce : TimeInForce) (nonce : ℤ)
    (limitPrice : Option PyDecimal) (volatilityBips : Option ℤ)
    (expiration : Option ℕ) (postOnly : Bool)
    (reduceOnly : Bool) : PlaceOrderInput :=
  { marketHash := marketHash
    instrumentHash := instrumentHash
    subaccount := toString subaccount
    orderType := orderType
    direction := direction
    size := toString (from_decimal size)
    limitPrice := limitPrice.map (fun p => toString (from_decimal p))
    volatilityBips := volatilityBips
    timeInForce := timeInForce
    expiration := expiration
    nonce := toString nonce
    postOnly := some postOnly
    reduceOnly := some reduceOnly }

/- ==================== config.py : environments ==================== -/

/-- `config.EIP712Domain`. -/
structure EIP712Domain where
  name : String
  version : String
  chain_id : ℕ
  verifyingContract : String
  deriving DecidableEq, Repr

/-- `config.EnvironmentInfo`. -/
structure EnvironmentInfo where
  http_url : String
  ws_url : String
  domain : EIP712Domain
  deriving DecidableEq, Repr

/-- `config.Environment`: the fixed enumeration of supported networks. -/
inductive Environment
  | TESTNET
  | MAINNET
  deriving DecidableEq, Repr

/-- The `EnvironmentInfo` value attached to each `Environment` member in
`config.py`. -/
def Environment.value : Environment → EnvironmentInfo
  | .TESTNET =>
    { http_url := "https://goerli-api.hook.xyz/query"
      ws_url := "wss://goerli-api.hook.xyz/query"
      domain :=
        { name := "Hook"
          version := "1.0.0"
          verifyingContract := "0x64247BeF0C0990aF63FCbdd21dc07aC2b251f500"
          chain_id := 46658378 } }
  | .MAINNET =>
    { http_url := "https://api-prod.hook.xyz/query"
      ws_url := "wss://api-prod.hook.xyz/query"
      domain :=
        { name := "Hook"
          version := "1.0.0"
          verifyingContract := "0xF9Bd1BaB25442A3b6888f2086736C6aC76A4Cf4B"
          chain_id := 4665 } }

/- ==================== signer.py : the stub signer ==================== -/

/-- `signer.OdysseySigner` (the file `signer.py`, distinct from
`signing.py`): its internal state after `__init__`. -/
structure StubSigner where
  env : Environment
  private_key : String
  deriving DecidableEq, Repr

/-- `signer.OdysseySigner.__init__`: stores the environment and the key
with a `0x` prefix removed. -/
def StubSigner.create (env : Environment) (private_key : String) : StubSigner :=
  { env := env
    private_key := stripHexPrefix private_key }

/-- `signer.OdysseySigner.sign_order`: returns `("", "")` for every
order. -/
def StubSigner.sign_order (_s : StubSigner) (_order : PlaceOrderInput) :
    String × String := ("", "")

/- ==================== keccak-256 ==================== -/

/-- Sequencing for numbers: semantically `f n`, but the match forces `n`
to a literal during definitional reduction and hands the evaluated value
to the continuation, so kernel evaluation of the fueled loops below
stays shallow and shares intermediate results. -/
def seqNat {β : Type} (n : ℕ) (f : ℕ → β) : β :=
  match n with
  | 0 => f 0
  | m + 1 => f (m + 1)

/-- Sequencing for byte/lane lists: semantically `f l`, evaluating the
whole list to a literal first. -/
def seqListNat {β : Type} : List ℕ → (List ℕ → β) → β
  | [], f => f []
  | n :: rest, f => seqNat n (fun m => seqListNat rest (fun l => f (m :: l)))

/-- Sequencing for triples of numbers. -/
def seqNat3 {β : Type} (t : ℕ × ℕ × ℕ) (f : ℕ × ℕ × ℕ → β) : β :=
  seqNat t.1 (fun a => seqNat t.2.1 (fun b => seqNat t.2.2 (fun c => f (a, b, c))))

/-- 64-bit mask. -/
def mask64 : ℕ := 2 ^ 64 - 1

/-- Rotate a 64-bit word left by `n` (for `0 ≤ n < 64`). -/
def rotl64 (x n : ℕ) : ℕ :=
  ((x <<< n) ||| (x >>> (64 - n))) &&& mask64

/-- The 24 keccak-f round constants. -/
def keccakRC : List ℕ :=
  [1, 32898, 9223372036854808714,
   9223372039002292224, 32907, 2147483649,
   9223372039002292353, 9223372036854808585, 138,
   136, 2147516425, 2147483658,
   2147516555, 9223372036854775947, 9223372036854808713,
   9223372036854808579, 9223372036854808578, 9223372036854775936,
   32778, 9223372039002259466, 9223372039002292353,
   9223372036854808704, 2147483649, 9223372039002292232]

/-- One full keccak round (θ, ρ, π, χ, ι), unrolled over the 25 lanes
(flat index `x + 5 * y`) for efficient kernel evaluation. -/
def keccakRound (rc : ℕ) (A : List ℕ) : List ℕ :=
  match A with
  | a0 :: a1 :: a2 :: a3 :: a4 :: a5 :: a6 :: a7 :: a8 :: a9 :: a10 :: a11 :: a12 :: a13 :: a14 :: a15 :: a16 :: a17 :: a18 :: a19 :: a20 :: a21 :: a22 :: a23 :: a24 :: _ =>
    let c0 := Nat.xor (Nat.xor (Nat.xor (Nat.xor a0 a5) a10) a15) a20
    let c1 := Nat.xor (Nat.xor (Nat.xor (Nat.xor a1 a6) a11) a16) a21
    let c2 := Nat.xor (Nat.xor (Nat.xor (Nat.xor a2 a7) a12) a17) a22
    let c3 := Nat.xor (Nat.xor (Nat.xor (Nat.xor a3 a8) a13) a18) a23
    let c4 := Nat.xor (Nat.xor (Nat.xor (Nat.xor a4 a9) a14) a19) a24
    let d0 := Nat.xor c4 (rotl64 c1 1)
    let d1 := Nat.xor c0 (rotl64 c2 1)
    let d2 := Nat.xor c1 (rotl64 c3 1)
    let d3 := Nat.xor c2 (rotl64 c4 1)
    let d4 := Nat.xor c3 (rotl64 c0 1)
    let b0 := rotl64 (Nat.xor a0 d0) 0
    let b1 := rotl64 (Nat.xor a6 d1) 44
    let b2 := rotl64 (Nat.xor a12 d2) 43
    let b3 := rotl64 (Nat.xor a18 d3) 21
    let b4 := rotl64 (Nat.xor a24 d4) 14
    let b5 := rotl64 (Nat.xor a3 d3) 28
    let b6 := rotl64 (Nat.xor a9 d4) 20
    let b7 := rotl64 (Nat.xor a10 d0) 3
    let b8 := rotl64 (Nat.xor a16 d1) 45
    let b9 := rotl64 (Nat.xor a22 d2) 61
    let b10 := rotl64 (Nat.xor a1 d1) 1
    let b11 := rotl64 (Nat.xor a7 d2) 6
    let b12 := rotl64 (Nat.xor a13 d3) 25
    let b13 := rotl64 (Nat.xor a19 d4) 8
    let b14 := rotl64 (Nat.xor a20 d0) 18
    let b15 := rotl64 (Nat.xor a4 d4) 27
    let b16 := rotl64 (Nat.xor a5 d0) 36
    let b17 := rotl64 (Nat.xor a11 d1) 10
    let b18 := rotl64 (Nat.xor a17 d2) 15
    let b19 := rotl64 (Nat.xor a23 d3) 56
    let b20 := rotl64 (Nat.xor a2 d2) 62
    let b21 := rotl64 (Nat.xor a8 d3) 55
    let b22 := rotl64 (Nat.xor a14 d4) 39
    let b23 := rotl64 (Nat.xor a15 d0) 41
    let b24 := rotl64 (Nat.xor a21 d1) 2
    let o0 := Nat.xor (Nat.xor b0 (Nat.land (Nat.xor mask64 b1) b2)) rc
    let o1 := Nat.xor b1 (Nat.land (Nat.xor mask64 b2) b3)
    let o2 := Nat.xor b2 (Nat.land (Nat.xor mask64 b3) b4)
    let o3 := Nat.xor b3 (Nat.land (Nat.xor mask64 b4) b0)
    let o4 := Nat.xor b4 (Nat.land (Nat.xor mask64 b0) b1)
    let o5 := Nat.xor b5 (Nat.land (Nat.xor mask64 b6) b7)
    let o6 := Nat.xor b6 (Nat.land (Nat.xor mask64 b7) b8)
    let o7 := Nat.xor b7 (Nat.land (Nat.xor mask64 b8) b9)
    let o8 := Nat.xor b8 (Nat.land (Nat.xor mask64 b9) b5)
    let o9 := Nat.xor b9 (Nat.land (Nat.xor mask64 b5) b6)
    let o10 := Nat.xor b10 (Nat.land (Nat.xor mask64 b11) b12)
    let o11 := Nat.xor b11 (Nat.land (Nat.xor mask64 b12) b13)
    let o12 := Nat.xor b12 (Nat.land (Nat.xor mask64 b13) b14)
    let o13 := Nat.xor b13 (Nat.land (Nat.xor mask64 b14) b10)
    let o14 := Nat.xor b14 (Nat.land (Nat.xor mask64 b10) b11)
    let o15 := Nat.xor b15 (Nat.land (Nat.xor mask64 b16) b17)
    let o16 := Nat.xor b16 (Nat.land (Nat.xor mask64 b17) b18)
    let o17 := Nat.xor b17 (Nat.land (Nat.xor mask64 b18) b19)
    let o18 := Nat.xor b18 (Nat.land (Nat.xor mask64 b19) b15)
    let o19 := Nat.xor b19 (Nat.land (Nat.xor mask64 b15) b16)
    let o20 := Nat.xor b20 (Nat.land (Nat.xor mask64 b21) b22)
    let o21 := Nat.xor b21 (Nat.land (Nat.xor mask64 b22) b23)
    let o22 := Nat.xor b22 (Nat.land (Nat.xor mask64 b23) b24)
    let o23 := Nat.xor b23 (Nat.land (Nat.xor mask64 b24) b20)
    let o24 := Nat.xor b24 (Nat.land (Nat.xor mask64 b20) b21)
    [o0, o1, o2, o3, o4, o5, o6, o7, o8, o9, o10, o11, o12, o13, o14, o15, o16, o17, o18, o19, o20, o21, o22, o23, o24]
  | _ => A

/-- Iterate the rounds over the round-constant list. -/
def keccakRounds : List ℕ → List ℕ → List ℕ
  | [], A => A
  | rc :: rest, A => seqListNat (keccakRound rc A) (keccakRounds rest)

/-- The keccak-f[1600] permutation: 24 rounds of θ, ρπ, χ, ι. -/
def keccakF (A : List ℕ) : List ℕ := keccakRounds keccakRC A

/-- Keccak multi-rate padding for rate 136: append `0x01`, zeros, `0x80`
(a single `0x81` byte when only one byte of padding fits). -/
def keccakPad (data : List ℕ) : List ℕ :=
  let padlen := 136 - data.length % 136
  if padlen = 1 then data ++ [0x81]
  else data ++ 0x01 :: List.replicate (padlen - 2) 0 ++ [0x80]

/-- A 136-byte block as 17 little-endian 64-bit lanes. -/
def blockToLanes (block : List ℕ) : List ℕ :=
  (List.range 17).map (fun i => bytesToNatBE ((block.drop (8 * i)).take 8).reverse)

/-- Absorb one 136-byte block into the state and permute. -/
def keccakAbsorbBlock (A block : List ℕ) : List ℕ :=
  let lanes := blockToLanes block
  keccakF ((List.range 25).map (fun i =>
    if i < 17 then A.getD i 0 ^^^ lanes.getD i 0 else A.getD i 0))

/-- Absorb a padded message, 136 bytes at a time (fueled structural
recursion; the fuel is at least the number of blocks). -/
def keccakAbsorb : ℕ → List ℕ → List ℕ → List ℕ
  | 0, A, _ => A
  | _ + 1, A, [] => A
  | fuel + 1, A, rest =>
    seqListNat (keccakAbsorbBlock A (rest.take 136))
      (fun s => keccakAbsorb fuel s (rest.drop 136))

/-- keccak-256 of a byte list: pad, absorb at rate 136, squeeze the first
four lanes (32 bytes, little-endian per lane). -/
def keccak256 (data : List ℕ) : List ℕ :=
  let padded := keccakPad data
  seqListNat (keccakAbsorb (padded.length) (List.replicate 25 0) padded) (fun A =>
    (natToBytesLE 8 (A.getD 0 0)) ++ (natToBytesLE 8 (A.getD 1 0)) ++
      (natToBytesLE 8 (A.getD 2 0)) ++ (natToBytesLE 8 (A.getD 3 0)))

/- ==================== EIP-712 typed-data hashing ==================== -/

/-- A 32-byte ABI word holding a number (big-endian). -/
def word256 (n : ℕ) : List ℕ := natToBytesBE 32 n

/-- A 32-byte ABI word holding a boolean. -/
def boolWord (b : Bool) : List ℕ := word256 (if b then 1 else 0)

/-- The `EIP712Domain` type string hashed into every domain separator. -/
def domainTypeString : String :=
  "EIP712Domain(string name,string version,uint256 chainId,address verifyingContract)"

/-- The type string of the `Order` struct, exactly the `_types` table of
`signing.py` in declared field order. -/
def orderTypeString : String :=
  "Order(bytes32 market,uint8 instrumentType,bytes32 instrumentId,uint8 direction,uint256 maker,uint256 taker,uint256 amount,uint256 limitPrice,uint256 expiration,uint256 nonce,uint256 counter,bool postOnly,bool reduceOnly,bool allOrNothing)"

/-- The field names declared by the `Order` entry of the `_types` schema
in `signing.py`, in order. -/
def orderSchemaFieldNames : List String :=
  ["market", "instrumentType", "instrumentId", "direction", "maker", "taker",
   "amount", "limitPrice", "expiration", "nonce", "counter", "postOnly",
   "reduceOnly", "allOrNothing"]

/-- The EIP-712 domain separator: keccak of the domain type hash and the
encoded domain fields (`name`, `version`, `chainId`, `verifyingContract`)
as assembled from `Environment.value.domain` by `OdysseySigner.__init__`. -/
def domainSeparator (env : Environment) : List ℕ :=
  let d := env.value.domain
  keccak256 (keccak256 (strToBytes domainTypeString) ++
    keccak256 (strToBytes d.name) ++ keccak256 (strToBytes d.version) ++
    word256 d.chain_id ++ word256 (hexStringToNat d.verifyingContract))

/-- The `message_data` dictionary built by `OdysseySigner.sign_order`,
after the integer parsing the typed-data encoder applies to its
string-valued entries.  Mirrors `signing.py` lines 48–63 field by
field. -/
structure OrderMessage where
  market : List ℕ
  instrumentType : ℕ
  instrumentId : List ℕ
  direction : ℕ
  maker : ℕ
  taker : ℕ
  amount : ℕ
  limitPrice : ℕ
  expiration : ℕ
  nonce : ℕ
  counter : ℕ
  postOnly : Bool
  reduceOnly : Bool
  allOrNothing : Bool
  deriving DecidableEq, Repr

/-- Build the `message_data` of `OdysseySigner.sign_order` from a
`PlaceOrderInput`:
`instrumentType` is hard-coded to 2, `direction` encodes BUY as 0 and
SELL as 1, `maker` is the subaccount and `taker` is 0, absent optional
fields become 0 / `False`, and `counter` and `allOrNothing` are always 0
/ `False`. -/
def buildOrderMessage (order : PlaceOrderInput) : OrderMessage :=
  { market := hexStringToBytes order.marketHash
    instrumentType := 2
    instrumentId := hexStringToBytes order.instrumentHash
    direction := if order.direction = OrderDirection.BUY then 0 else 1
    maker := parseIntBase0 order.subaccount
    taker := 0
    amount := parseIntBase0 order.size
    limitPrice := match order.limitPrice with
      | some p => parseIntBase0 p
      | none => 0
    expiration := match order.expiration with
      | some e => e
      | none => 0
    nonce := parseIntBase0 order.nonce
    counter := 0
    postOnly := match order.postOnly with
      | some b => b
      | none => false
    reduceOnly := match order.reduceOnly with
      | some b => b
      | none => false
    allOrNothing := false }

/-- The 32-byte words of the encoded `Order` struct, one per schema
field, in schema order. -/
def orderMessageWords (m : OrderMessage) : List (List ℕ) :=
  [m.market, word256 m.instrumentType, m.instrumentId, word256 m.direction,
   word256 m.maker, word256 m.taker, word256 m.amount, word256 m.limitPrice,
   word256 m.expiration, word256 m.nonce, word256 m.counter,
   boolWord m.postOnly, boolWord m.reduceOnly, boolWord m.allOrNothing]

/-- `encodeData` of the `Order` struct: the type hash followed by each
field as one 32-byte word. -/
def orderEncodeData (m : OrderMessage) : List ℕ :=
  keccak256 (strToBytes orderTypeString) ++ (orderMessageWords m).foldr (· ++ ·) []

/-- `hashStruct` of the `Order` struct. -/
def orderStructHash (m : OrderMessage) : List ℕ := keccak256 (orderEncodeData m)

/-- The EIP-191 / EIP-712 signable payload: `0x19 0x01`, the domain
separator and the struct hash. -/
def eip712Payload (env : Environment) (m : OrderMessage) : List ℕ :=
  0x19 :: 0x01 :: domainSeparator env ++ orderStructHash m

/-- The 32-byte unsigned order digest computed by
`encode_typed_data` + `_hash_eip191_message` in `OdysseySigner.sign_order`. -/
def orderDigest (env : Environment) (order : PlaceOrderInput) : List ℕ :=
  keccak256 (eip712Payload env (buildOrderMessage order))

/- ==================== SHA-256 (for RFC 6979) ==================== -/

/-- 32-bit mask. -/
def mask32 : ℕ := 2 ^ 32 - 1

/-- Rotate a 32-bit word right by `n` (for `0 < n < 32`). -/
def rotr32 (x n : ℕ) : ℕ :=
  ((x >>> n) ||| (x <<< (32 - n))) &&& mask32

/-- The 64 SHA-256 round constants. -/
def sha256K : List ℕ :=
  [1116352408, 1899447441, 3049323471, 3921009573, 961987163, 1508970993,
   2453635748, 2870763221, 3624381080, 310598401, 607225278, 1426881987,
   1925078388, 2162078206, 2614888103, 3248222580, 3835390401, 4022224774,
   264347078, 604807628, 770255983, 1249150122, 1555081692, 1996064986,
   2554220882, 2821834349, 2952996808, 3210313671, 3336571891, 3584528711,
   113926993, 338241895, 666307205, 773529912, 1294757372, 1396182291,
   1695183700, 1986661051, 2177026350, 2456956037, 2730485921, 2820302411,
   3259730800, 3345764771, 3516065817, 3600352804, 4094571909, 275423344,
   430227734, 506948616, 659060556, 883997877, 958139571, 1322822218,
   1537002063, 1747873779, 1955562222, 2024104815, 2227730452, 2361852424,
   2428436474, 2756734187, 3204031479, 3329325298]

/-- The SHA-256 initial state. -/
def sha256H0 : List ℕ :=
  [1779033703, 3144134277, 1013904242, 2773480762,
   1359893119, 2600822924, 528734635, 1541459225]

/-- The next message-schedule word, computed from the window of
previous words (most recent first). -/
def sha256NextWord (Wrev : List ℕ) : ℕ :=
  let w15 := Wrev.getD 14 0
  let w2 := Wrev.getD 1 0
  let s0 := Nat.xor (Nat.xor (rotr32 w15 7) (rotr32 w15 18)) (w15 >>> 3)
  let s1 := Nat.xor (Nat.xor (rotr32 w2 17) (rotr32 w2 19)) (w2 >>> 10)
  Nat.land (Wrev.getD 15 0 + s0 + Wrev.getD 6 0 + s1) mask32

/-- Extend the newest-first schedule by `fuel` words. -/
def sha256Extend : ℕ → List ℕ → List ℕ
  | 0, W => W
  | fuel + 1, W => seqNat (sha256NextWord W) (fun w => sha256Extend fuel (w :: W))

/-- The 64-word message schedule of one 64-byte block. -/
def sha256Schedule (block : List ℕ) : List ℕ :=
  seqListNat ((List.range 16).map (fun i => bytesToNatBE ((block.drop (4 * i)).take 4)))
    (fun W0 => (sha256Extend 48 W0.reverse).reverse)

/-- One SHA-256 round on the 8-word working state, with round constant
`kc` and schedule word `wt`, unrolled for efficient kernel evaluation. -/
def sha256RoundStep (kc wt : ℕ) (s : List ℕ) : List ℕ :=
  match s with
  | a :: b :: c :: d :: e :: f :: g :: h :: _ =>
    let S1 := Nat.xor (Nat.xor (rotr32 e 6) (rotr32 e 11)) (rotr32 e 25)
    let ch := Nat.xor (Nat.land e f) (Nat.land (Nat.xor mask32 e) g)
    let temp1 := Nat.land (h + S1 + ch + kc + wt) mask32
    let S0 := Nat.xor (Nat.xor (rotr32 a 2) (rotr32 a 13)) (rotr32 a 22)
    let maj := Nat.xor (Nat.xor (Nat.land a b) (Nat.land a c)) (Nat.land b c)
    let temp2 := Nat.land (S0 + maj) mask32
    [Nat.land (temp1 + temp2) mask32, a, b, c, Nat.land (d + temp1) mask32, e, f, g]
  | _ => s

/-- The 64 SHA-256 rounds, consuming the zipped constants and schedule. -/
def sha256Rounds : List (ℕ × ℕ) → List ℕ → List ℕ
  | [], s => s
  | kw :: rest, s => seqListNat (sha256RoundStep kw.1 kw.2 s) (sha256Rounds rest)

/-- One SHA-256 compression of a 64-byte block into the 8-word state. -/
def sha256Compress (H block : List ℕ) : List ℕ :=
  seqListNat (sha256Rounds (sha256K.zip (sha256Schedule block)) H) (fun fin =>
    match H, fin with
    | h0 :: h1 :: h2 :: h3 :: h4 :: h5 :: h6 :: h7 :: _,
      f0 :: f1 :: f2 :: f3 :: f4 :: f5 :: f6 :: f7 :: _ =>
      [Nat.land (h0 + f0) mask32, Nat.land (h1 + f1) mask32, Nat.land (h2 + f2) mask32,
       Nat.land (h3 + f3) mask32, Nat.land (h4 + f4) mask32, Nat.land (h5 + f5) mask32,
       Nat.land (h6 + f6) mask32, Nat.land (h7 + f7) mask32]
    | _, _ => H)

/-- SHA-256 padding: `0x80`, zeros, and the 64-bit big-endian bit length. -/
def sha256Pad (msg : List ℕ) : List ℕ :=
  let padlen := (119 - msg.length % 64) % 64
  msg ++ 0x80 :: List.replicate padlen 0 ++ natToBytesBE 8 (8 * msg.length)

/-- Process the padded message 64 bytes at a time (fueled structural
recursion; the fuel is at least the number of blocks). -/
def sha256Blocks : ℕ → List ℕ → List ℕ → List ℕ
  | 0, H, _ => H
  | _ + 1, H, [] => H
  | fuel + 1, H, rest =>
    seqListNat (sha256Compress H (rest.take 64))
      (fun H1 => sha256Blocks fuel H1 (rest.drop 64))

/-- SHA-256 of a byte list, as 32 bytes. -/
def sha256 (msg : List ℕ) : List ℕ :=
  let padded := sha256Pad msg
  let H := sha256Blocks padded.length sha256H0 padded
  (H.foldr (fun w acc => natToBytesBE 4 w ++ acc) [])

/-- HMAC-SHA256 with a key of at most 64 bytes. -/
def hmacSha256 (key msg : List ℕ) : List ℕ :=
  let kpad := key ++ List.replicate (64 - key.length) 0
  let ipad := kpad.map (fun b => b ^^^ 0x36)
  let opad := kpad.map (fun b => b ^^^ 0x5c)
  sha256 (opad ++ sha256 (ipad ++ msg))

/- ==================== secp256k1 and deterministic ECDSA ==================== -/

/-- The secp256k1 field prime. -/
def secpP : ℕ := 2 ^ 256 - 2 ^ 32 - 977

/-- The secp256k1 group order. -/
def secpN : ℕ := 0xFFFFFFFFFFFFFFFFFFFFFFFFFFFFFFFEBAAEDCE6AF48A03BBFD25E8CD0364141

/-- The secp256k1 base point. -/
def secpGx : ℕ := 0x79BE667EF9DCBBAC55A06295CE870B07029BFCDB2DCE28D959F2815B16F81798

/-- The secp256k1 base point, y coordinate. -/
def secpGy : ℕ := 0x483ADA7726A3C4655DA4FBFC0E1108A8FD17B448A68554199C47D08FFB10D4B8

/-- Modular subtraction of reduced residues. -/
def submod (a b m : ℕ) : ℕ := (a % m + (m - b % m)) % m

/-- Binary modular exponentiation, accumulator style, on the state
`(base, exponent, accumulator)` (fueled on the bit length of the
exponent; 300 units of fuel cover any 256-bit exponent). -/
def powModAux (m : ℕ) : ℕ → ℕ × ℕ × ℕ → ℕ
  | 0, s => s.2.2
  | fuel + 1, s =>
    if s.2.1 = 0 then s.2.2
    else
      seqNat3 (s.1 * s.1 % m, s.2.1 / 2,
          if s.2.1 % 2 = 1 then s.2.2 * s.1 % m else s.2.2)
        (powModAux m fuel)

/-- `a ^ e % m` by binary exponentiation. -/
def powMod (a e m : ℕ) : ℕ := powModAux m 300 (a % m, e, 1 % m)

/-- Modular inverse by Fermat's little theorem (the modulus is prime in
every use). -/
def invMod (a m : ℕ) : ℕ := powMod a (m - 2) m

/-- A point in Jacobian coordinates; `z = 0` is the point at infinity. -/
abbrev JacPoint := ℕ × ℕ × ℕ

/-- Jacobian point doubling on secp256k1 (`a = 0` curve). -/
def jacDouble (Pt : JacPoint) : JacPoint :=
  let (X, Y, Z) := Pt
  if Y = 0 then (0, 1, 0)
  else
    let YY := Y * Y % secpP
    let S := 4 * X * YY % secpP
    let M := 3 * (X * X % secpP) % secpP
    let X2 := submod (M * M % secpP) (2 * S % secpP) secpP
    let Y2 := submod (M * (submod S X2 secpP) % secpP) (8 * (YY * YY % secpP) % secpP) secpP
    let Z2 := 2 * Y * Z % secpP
    (X2, Y2, Z2)

/-- Jacobian point addition on secp256k1. -/
def jacAdd (Pt Q : JacPoint) : JacPoint :=
  let (X1, Y1, Z1) := Pt
  let (X2, Y2, Z2) := Q
  if Z1 = 0 then Q
  else if Z2 = 0 then Pt
  else
    let Z1Z1 := Z1 * Z1 % secpP
    let Z2Z2 := Z2 * Z2 % secpP
    let U1 := X1 * Z2Z2 % secpP
    let U2 := X2 * Z1Z1 % secpP
    let S1 := Y1 * Z2 % secpP * Z2Z2 % secpP
    let S2 := Y2 * Z1 % secpP * Z1Z1 % secpP
    if U1 = U2 then
      if S1 ≠ S2 then (0, 1, 0)
      else jacDouble Pt
    else
      let H := submod U2 U1 secpP
      let R := submod S2 S1 secpP
      let H2 := H * H % secpP
      let H3 := H * H2 % secpP
      let U1H2 := U1 * H2 % secpP
      let X3 := submod (submod (R * R % secpP) H3 secpP) (2 * U1H2 % secpP) secpP
      let Y3 := submod (R * (submod U1H2 X3 secpP) % secpP) (S1 * H3 % secpP) secpP
      let Z3 := H * Z1 % secpP * Z2 % secpP
      (X3, Y3, Z3)

/-- The double-and-add ladder: with `fuel + 1` iterations left, process
bit `fuel` of the scalar. -/
def scalarMultAux (k Px Py : ℕ) : ℕ → JacPoint → JacPoint
  | 0, R => R
  | fuel + 1, R =>
    let R2 := jacDouble R
    seqNat3 (if k >>> fuel &&& 1 = 1 then jacAdd R2 (Px, Py, 1) else R2)
      (scalarMultAux k Px Py fuel)

/-- Double-and-add scalar multiplication over the 256 bits of the
scalar, most significant bit first. -/
def scalarMult (k : ℕ) (Px Py : ℕ) : JacPoint :=
  scalarMultAux k Px Py 256 (0, 1, 0)

/-- A Jacobian point in affine coordinates, `none` for infinity. -/
def toAffine (Pt : JacPoint) : Option (ℕ × ℕ) :=
  let (X, Y, Z) := Pt
  if Z = 0 then none
  else
    seqNat (invMod Z secpP) (fun zi =>
    seqNat (zi * zi % secpP) (fun zi2 =>
    some (X * zi2 % secpP, Y * zi2 % secpP * zi % secpP)))

/-- The candidate loop of RFC 6979 section 3.2 step h (fueled; the first
candidate is accepted unless it falls outside `[1, n-1]`). -/
def rfc6979Loop : ℕ → List ℕ → List ℕ → Option ℕ
  | 0, _, _ => none
  | fuel + 1, K, V =>
    seqListNat (hmacSha256 K V) (fun V1 =>
      seqNat (bytesToNatBE V1) (fun k =>
        if 1 ≤ k ∧ k < secpN then some k
        else
          seqListNat (hmacSha256 K (V1 ++ [0x00])) (fun K1 =>
            rfc6979Loop fuel K1 (hmacSha256 K1 V1))))

/-- The RFC 6979 deterministic nonce for digest `z` and private key `d`
(the scheme used by `eth_account` / `eth_keys` signing). -/
def rfc6979K (z d : ℕ) : Option ℕ :=
  seqListNat (natToBytesBE 32 z) (fun h1 =>
  seqListNat (natToBytesBE 32 d) (fun x =>
  let V0 := List.replicate 32 0x01
  let K0 := List.replicate 32 0x00
  seqListNat (hmacSha256 K0 (V0 ++ 0x00 :: (x ++ h1))) (fun K1 =>
  seqListNat (hmacSha256 K1 V0) (fun V1 =>
  seqListNat (hmacSha256 K1 (V1 ++ 0x01 :: (x ++ h1))) (fun K2 =>
  seqListNat (hmacSha256 K2 V1) (fun V2 =>
  rfc6979Loop 1000 K2 V2))))))

/-- The final scalar arithmetic of an ECDSA signature, given the nonce
`k` and the affine point `k · G`: `r`, `s = k⁻¹ (z + r d) mod n`, the
recovery id from the parity of the point, and the canonical low-`s`
normalization (flipping the recovery id when `s` is flipped). -/
def ecdsaFinish (z d k : ℕ) (Rxy : ℕ × ℕ) : Option (ℕ × ℕ × ℕ) :=
  seqNat (Rxy.1 % secpN) (fun r =>
  seqNat (invMod k secpN * ((z + r * d) % secpN) % secpN) (fun s =>
  seqNat (Rxy.2 % 2) (fun recid =>
  if r = 0 ∨ s = 0 then none
  else if secpN < 2 * s then some (r, secpN - s, recid ^^^ 1)
  else some (r, s, recid))))

/-- Deterministic ECDSA over secp256k1 with the canonical low-`s`
normalization and recovery id, as produced by `eth_account`'s
`signHash`: returns `(r, s, recoveryId)`. -/
def ecdsaSignRaw (z d : ℕ) : Option (ℕ × ℕ × ℕ) :=
  (rfc6979K z d).bind (fun k =>
    (toAffine (scalarMult k secpGx secpGy)).bind (ecdsaFinish z d k))

/- ==================== signing.py : OdysseySigner ==================== -/

/-- `signing.OdysseySigner` state after `__init__`: the environment and
the private key with a `0x` prefix removed. -/
structure OdysseySigner where
  env : Environment
  private_key : String
  deriving DecidableEq

/-- `signing.OdysseySigner.__init__`. -/
def OdysseySigner.create (env : Environment) (private_key : String) : OdysseySigner :=
  { env := env
    private_key := stripHexPrefix private_key }

/-- `signing.OdysseySigner.sign_order`: build `message_data`, hash the
typed data to the 32-byte unsigned digest, sign the digest with the
account key, and return the pair
`(signature.hex(), "0x" + unsigned_hash)`.  `none` models the
(never-observed) failure of the unbounded RFC 6979 candidate loop or a
degenerate signature. -/
def OdysseySigner.sign_order (s : OdysseySigner) (order : PlaceOrderInput) :
    Option (String × String) :=
  seqListNat (orderDigest s.env order) (fun digest =>
  seqNat (hexStringToNat s.private_key) (fun d =>
  (ecdsaSignRaw (bytesToNatBE digest) d).map (fun rsv =>
    ("0x" ++ bytesToHex (natToBytesBE 32 rsv.1 ++ natToBytesBE 32 rsv.2.1 ++ [27 + rsv.2.2]),
      "0x" ++ bytesToHex digest))))

/-- `signing.OdysseySigner.get_order_hash`: run `sign_order` and return
the second component (the unsigned hash). -/
def OdysseySigner.get_order_hash (s : OdysseySigner) (order : PlaceOrderInput) :
    Option String :=
  (s.sign_order order).map (fun p => p.2)

/- ==================== client.py : OdysseyClient ==================== -/

/-- `types.SignatureType`. -/
inductive SignatureType
  | DIRECT
  | SIGNING_KEY
  | SIGNING_KEY_CACHED
  | EIP1271
  deriving DecidableEq, Repr

/-- `types.SignatureInput`. -/
structure SignatureInput where
  signatureType : SignatureType
  signature : String
  deriving DecidableEq, Repr

/-- The exception classes of `exceptions.py`, plus the carried message. -/
inductive OdysseyError
  | OdysseyAPIError
  | PrivateKeyError (msg : String)
  | APIKeyError (msg : String)
  deriving DecidableEq, Repr

/-- Python truthiness of an optional string (`None` and `""` are falsy),
used by the `if not self._api_key` / `if not self._private_key` checks
in `client.py`. -/
def pyTruthy : Option String → Bool
  | none => false
  | some s => !(s == "")

/-- `client.OdysseyClient` construction state: environment, optional API
key, optional private key. -/
structure OdysseyClient where
  env : Environment
  api_key : Option String
  private_key : Option String
  deriving DecidableEq

/-- The signer created by `OdysseyClient.__init__`: present exactly when
the private key is truthy (`if self._private_key: self._signer = ...`). -/
def OdysseyClient.signer (c : OdysseyClient) : Option OdysseySigner :=
  match c.private_key with
  | none => none
  | some k => if k == "" then none else some (OdysseySigner.create c.env k)

/-- `client.OdysseyClient.place_order` up to the network call: the API
key check, the private key / signer check, signing, and the
`SignatureInput(DIRECT, raw_signature)` attached to the outbound
mutation variables.  On success returns the `(orderInput, signature)`
pair the mutation would ship (`none` inside `ok` is the fuel artifact of
the signature model, never observed). -/
def OdysseyClient.place_order (c : OdysseyClient) (order : PlaceOrderInput) :
    Except OdysseyError (Option (PlaceOrderInput × SignatureInput)) :=
  if ¬ pyTruthy c.api_key then .error (.APIKeyError "No API key provided")
  else if ¬ pyTruthy c.private_key then .error (.PrivateKeyError "No private key provided")
  else
    match c.signer with
    | none => .error (.PrivateKeyError "No private key provided")
    | some sg =>
      match sg.sign_order order with
      | none => .ok none
      | some sig =>
        .ok (some (order, { signatureType := SignatureType.DIRECT, signature := sig.1 }))

/-- `client.OdysseyClient.cancel_order` up to the network call: no key
check at all; a transport failure becomes `OdysseyAPIError`, otherwise
`result.get("cancelOrderV2", False)` is returned.  The transport outcome
is passed as a parameter. -/
def OdysseyClient.cancel_order (_c : OdysseyClient) (_order_hash : String)
    (transport : Except Unit (Option Bool)) : Except OdysseyError Bool :=
  match transport with
  | .error _ => .error .OdysseyAPIError
  | .ok r => .ok (r.getD false)

/- ==================== graphql.py : session establishment ==================== -/

/-- The session-relevant state of `graphql.GraphQLClient`: the lazily
established websocket session (`_ws_session`) and, for bookkeeping, how
many `connect_async` calls have been made. -/
structure GQLState where
  ws_session : Option ℕ
  connectAttempts : ℕ
  deriving DecidableEq, Repr

/-- One (uninterleaved) call of `GraphQLClient.subscribe` up to the
point where the session is available: under the lock, if `_ws_session`
is `None`, call `connect_async` (outcome supplied as a parameter); a
raised transport error propagates to this caller and the assignment does
not happen, so the session slot stays `None`. -/
def subscribeStep (st : GQLState) (connectResult : Except String ℕ) :
    Except String ℕ × GQLState :=
  match st.ws_session with
  | some sid => (.ok sid, st)
  | none =>
    match connectResult with
    | .ok sid =>
      (.ok sid, { ws_session := some sid, connectAttempts := st.connectAttempts + 1 })
    | .error e =>
      (.error e, { ws_session := none, connectAttempts := st.connectAttempts + 1 })

/-- Program counter of one task running `GraphQLClient.subscribe` under
asyncio's cooperative scheduling, with suspension points exactly at the
two awaits (`lock.acquire` and `connect_async`): waiting to acquire the
lock; holding the lock before the `_ws_session is None` check;
suspended inside `connect_async`; finished with a session id in hand. -/
inductive TaskPc
  | start
  | locked
  | connecting
  | done (sid : ℕ)
  deriving DecidableEq, Repr

/-- Global state of the concurrent-subscribe scenario: who holds
`_ws_lock`, the `_ws_session` slot, the number of `connect_async` calls
made, and every task's program counter. -/
structure SessState where
  lock : Option ℕ
  session : Option ℕ
  connects : ℕ
  tasks : ℕ → TaskPc

/-- The initial state: uninitialized session manager, all subscribers
about to call `subscribe`. -/
def sessInit : SessState :=
  { lock := none
    session := none
    connects := 0
    tasks := fun _ => TaskPc.start }

/-- Interleaved small-step semantics of N concurrent `subscribe` calls
(the success scenario): a task acquires the free lock; under the lock it
checks `_ws_session`, either reusing the existing session (releasing the
lock) or starting `connect_async` while still holding the lock; a
finished `connect_async` assigns the session slot and releases the
lock. -/
inductive SessStep : SessState → SessState → Prop
  | acquire (s : SessState) (i : ℕ) :
      s.tasks i = TaskPc.start → s.lock = none →
      SessStep s { s with
        lock := some i
        tasks := fun j => if j = i then TaskPc.locked else s.tasks j }
  | checkActive (s : SessState) (i sid : ℕ) :
      s.tasks i = TaskPc.locked → s.session = some sid →
      SessStep s { s with
        lock := none
        tasks := fun j => if j = i then TaskPc.done sid else s.tasks j }
  | checkNone (s : SessState) (i : ℕ) :
      s.tasks i = TaskPc.locked → s.session = none →
      SessStep s { s with
        connects := s.connects + 1
        tasks := fun j => if j = i then TaskPc.connecting else s.tasks j }
  | finishConnect (s : SessState) (i : ℕ) :
      s.tasks i = TaskPc.connecting →
      SessStep s { s with
        lock := none
        session := some s.connects
        tasks := fun j => if j = i then TaskPc.done s.connects else s.tasks j }

/-- Reachability in the concurrent-subscribe scenario. -/
def SessReachable (s : SessState) : Prop :=
  Relation.ReflTransGen SessStep sessInit s

/- ==================== well-formed encoded messages ==================== -/

/-- Well-formedness of an encoded order message: the two `bytes32`
fields are 32 bytes and every numeric field fits the 32-byte ABI word it
is encoded into.  Every message built from SDK-constructed inputs
satisfies this. -/
def OrderMessage.wellFormed (m : OrderMessage) : Prop :=
  m.market.length = 32 ∧ m.instrumentId.length = 32 ∧
    m.instrumentType < 2 ^ 256 ∧ m.direction < 2 ^ 256 ∧ m.maker < 2 ^ 256 ∧
    m.taker < 2 ^ 256 ∧ m.amount < 2 ^ 256 ∧ m.limitPrice < 2 ^ 256 ∧
    m.expiration < 2 ^ 256 ∧ m.nonce < 2 ^ 256 ∧ m.counter < 2 ^ 256

instance (m : OrderMessage) : Decidable m.wellFormed := by
  unfold OrderMessage.wellFormed; infer_instance

/-- The encoded `Order` struct as named fields: each schema field name
paired with the 32-byte word it encodes to. -/
def orderEncodedFields (m : OrderMessage) : List (String × List ℕ) :=
  orderSchemaFieldNames.zip (orderMessageWords m)

/- ==================== the regression-vector inputs ==================== -/

/-- The test fixture `sample_order` of `tests/test_signer.py`, built
through the `PlaceOrderInput` constructor. -/
def sampleOrder : PlaceOrderInput :=
  PlaceOrderInput.create
    "0x2227a28199b649ce2995eb8a1b0d2b36116b7e1dddb3622d85860dc717df4305"
    "0x194add7922e3fd9e6c17ca58efc31f97e6b891d13ea1919c751926daf98dd8a6"
    37 OrderType.LIMIT OrderDirection.BUY (PyDecimal.ofInt 1) TimeInForce.GTC 0
    (some (PyDecimal.ofInt 2)) none none false false

/-- The same fixture with the constructor evaluated: the dataclass state
`sample_order` actually holds (big integers as decimal strings). -/
def sampleOrderLit : PlaceOrderInput :=
  { marketHash := "0x2227a28199b649ce2995eb8a1b0d2b36116b7e1dddb3622d85860dc717df4305"
    instrumentHash := "0x194add7922e3fd9e6c17ca58efc31f97e6b891d13ea1919c751926daf98dd8a6"
    subaccount := "37"
    orderType := OrderType.LIMIT
    direction := OrderDirection.BUY
    size := "1000000000000000000"
    limitPrice := some "2000000000000000000"
    volatilityBips := none
    timeInForce := TimeInForce.GTC
    expiration := none
    nonce := "0"
    postOnly := some false
    reduceOnly := some false }

/-- The test private key of `tests/test_signer.py`. -/
def samplePrivateKey : String :=
  "0x28d9a28fc26c2ab04f5d9b662dbe3163211495df6f633bad17720656145e9cdc"

/-- The signer under test: mainnet environment, test private key. -/
def sampleSigner : OdysseySigner :=
  OdysseySigner.create Environment.MAINNET samplePrivateKey

/-- `expected_order_hash` of `tests/test_signer.py`. -/
def expectedOrderHash : String :=
  "0xe471301f9ec44a0a1b66f5b0e2b6f9f720cdfcfcfbb8d96bb92d6b8927a71566"

/-- `expected_order_signature` of `tests/test_signer.py`. -/
def expectedOrderSignature : String :=
  "0x40fd267419f36e21c1955d18ae5e3cb1af3d866f35d5610b24e7fcd3275c694e785819d822e51d25af64a5de2767db787edd9cc6b576d7da0efcc53e258dc6721b"

/-- The 32 bytes of the expected unsigned digest. -/
def sampleDigestBytes : List ℕ :=
  [0xe4, 0x71, 0x30, 0x1f, 0x9e, 0xc4, 0x4a, 0x0a, 0x1b, 0x66, 0xf5, 0xb0, 0xe2, 0xb6,
   0xf9, 0xf7, 0x20, 0xcd, 0xfc, 0xfc, 0xfb, 0xb8, 0xd9, 0x6b, 0xb9, 0x2d, 0x6b, 0x89,
   0x27, 0xa7, 0x15, 0x66]

/-- The digest as a number (the value signed). -/
def sampleZ : ℕ := 0xe471301f9ec44a0a1b66f5b0e2b6f9f720cdfcfcfbb8d96bb92d6b8927a71566

/-- The test private key as a number. -/
def sampleD : ℕ := 0x28d9a28fc26c2ab04f5d9b662dbe3163211495df6f633bad17720656145e9cdc

/-- The RFC 6979 nonce for `(sampleZ, sampleD)`. -/
def sampleK : ℕ := 0xfdb08d0e87b266ed8dce8263320d9a7f7666ff6806b9daadb63b7d0fc0e3f44d

/-- The affine coordinates of `sampleK · G`. -/
def sampleRx : ℕ :=
  29395300013165920190822530339576757067463992740443523884318389950827175110990

/-- The affine coordinates of `sampleK · G`, y coordinate. -/
def sampleRy : ℕ :=
  9462776830417058694716816131358050575471366659051437082177661661606151884201

/-- The signature scalar r of the expected signature. -/
def sampleR : ℕ := 0x40fd267419f36e21c1955d18ae5e3cb1af3d866f35d5610b24e7fcd3275c694e

/-- The signature scalar s of the expected signature (already canonical,
low-s). -/
def sampleS : ℕ := 0x785819d822e51d25af64a5de2767db787edd9cc6b576d7da0efcc53e258dc672

/-- The sample order with the optional limit price absent. -/
def sampleOrderNoLimit : PlaceOrderInput :=
  { sampleOrderLit with limitPrice := none }

/-- The sample order with an explicit zero limit price. -/
def sampleOrderZeroLimit : PlaceOrderInput :=
  { sampleOrderLit with limitPrice := some "0" }

/-- `different_order` of `tests/test_signer.py`: the sample order with
`size` overwritten to `from_decimal(Decimal(2))`. -/
def sampleOrderSize2 : PlaceOrderInput :=
  { sampleOrderLit with size := "2000000000000000000" }

/-- A client constructed with neither an API key nor a private key. -/
def noKeyClient : OdysseyClient :=
  { env := Environment.MAINNET, api_key := none, private_key := none }

/-- A client constructed with an API key but no private key. -/
def apiOnlyClient : OdysseyClient :=
  { env := Environment.MAINNET, api_key := some "test-api-key", private_key := none }

/-- The inductive invariant of the concurrent-subscribe scenario: at
most one `connect_async` call; a locked or connecting task holds the
lock; a connecting task implies no session yet and exactly one connect;
an established session implies exactly one connect; a finished task
holds the established session id; and with no session and nobody
connecting, no connect has happened. -/
def SessInv (s : SessState) : Prop :=
  s.connects ≤ 1 ∧
  (∀ i, s.tasks i = TaskPc.locked → s.lock = some i) ∧
  (∀ i, s.tasks i = TaskPc.connecting →
    s.lock = some i ∧ s.session = none ∧ s.connects = 1) ∧
  (∀ sid, s.session = some sid → s.connects = 1) ∧
  (∀ i sid, s.tasks i = TaskPc.done sid → s.session = some sid) ∧
  (s.session = none → (∀ i, s.tasks i ≠ TaskPc.connecting) → s.connects = 0)

/-- Demo trace, step 1: task 0 acquires the lock. -/
def sessDemo1 : SessState :=
  { sessInit with
    lock := some 0
    tasks := fun j => if j = 0 then TaskPc.locked else sessInit.tasks j }

/-- Demo trace, step 2: task 0 sees no session and starts connecting. -/
def sessDemo2 : SessState :=
  { sessDemo1 with
    connects := sessDemo1.connects + 1
    tasks := fun j => if j = 0 then TaskPc.connecting else sessDemo1.tasks j }

/-- Demo trace, step 3: task 0 finishes connecting, stores the session
and releases the lock. -/
def sessDemo3 : SessState :=
  { sessDemo2 with
    lock := none
    session := some sessDemo2.connects
    tasks := fun j => if j = 0 then TaskPc.done sessDemo2.connects else sessDemo2.tasks j }

/-- Demo trace, step 4: task 1 acquires the lock. -/
def sessDemo4 : SessState :=
  { sessDemo3 with
    lock := some 1
    tasks := fun j => if j = 1 then TaskPc.locked else sessDemo3.tasks j }

/-- Demo trace, step 5: task 1 sees the established session and reuses
it. -/
def sessDemo5 : SessState :=
  { sessDemo4 with
    lock := none
    tasks := fun j => if j = 1 then TaskPc.done 1 else sessDemo4.tasks j }

/- ============================================================ -/
/- ========================= theorems ========================= -/
/- ============================================================ -/

/- ==================== general helper lemmas ==================== -/

theorem seqNat_eq {β : Type} (n : ℕ) (f : ℕ → β) : seqNat n f = f n := by
  cases n <;> rfl

theorem seqListNat_eq {β : Type} (l : List ℕ) (f : List ℕ → β) : seqListNat l f = f l := by
  induction l generalizing f with
  | nil => rfl
  | cons n rest ih => simp [seqListNat, seqNat_eq, ih]

theorem seqNat3_eq {β : Type} (t : ℕ × ℕ × ℕ) (f : ℕ × ℕ × ℕ → β) : seqNat3 t f = f t := by
  simp [seqNat3, seqNat_eq]

theorem ratTrunc_intCast (k : ℤ) : ratTrunc (k : ℚ) = k := by
  simp [ratTrunc, Rat.num_intCast, Rat.den_intCast, Int.tdiv_one]

theorem ratTrunc_nonneg_eq_floor (q : ℚ) (hq : 0 ≤ q) : ratTrunc q = ⌊q⌋ := by
  rw [ratTrunc, Int.tdiv_eq_ediv (Rat.num_nonneg.mpr hq) (Int.ofNat_nonneg q.den),
    Rat.floor_def]

theorem ratTrunc_neg (q : ℚ) : ratTrunc (-q) = -ratTrunc q := by
  simp [ratTrunc, Rat.neg_num, Int.neg_tdiv]

theorem scaleFactor_cast_ne_zero : (scaleFactor : ℚ) ≠ 0 := by
  simp [scaleFactor]

theorem natToBytesLE_length (w n : ℕ) : (natToBytesLE w n).length = w := by
  induction w generalizing n with
  | zero => rfl
  | succ w ih => simp [natToBytesLE, ih]

theorem natToBytesBE_length (w n : ℕ) : (natToBytesBE w n).length = w := by
  simp [natToBytesBE, natToBytesLE_length]

theorem word256_length (n : ℕ) : (word256 n).length = 32 := natToBytesBE_length 32 n

theorem boolWord_length (b : Bool) : (boolWord b).length = 32 := word256_length _

theorem bytesToNatBE_natToBytesBE (w n : ℕ) :
    bytesToNatBE (natToBytesBE w n) = n % 256 ^ w := by
  rw [natToBytesBE, bytesToNatBE, List.foldl_reverse]
  induction w generalizing n with
  | zero => simp [natToBytesLE, Nat.mod_one]
  | succ w ih =>
    simp only [natToBytesLE, List.foldr_cons, ih]
    rw [pow_succ, mul_comm (256 ^ w) 256, Nat.mod_mul]
    ring

theorem word256_inj {a b : ℕ} (ha : a < 2 ^ 256) (hb : b < 2 ^ 256)
    (h : word256 a = word256 b) : a = b := by
  have h256 : (256 : ℕ) ^ 32 = 2 ^ 256 := by norm_num
  have := congrArg bytesToNatBE h
  rwa [word256, word256, bytesToNatBE_natToBytesBE, bytesToNatBE_natToBytesBE,
    h256, Nat.mod_eq_of_lt ha, Nat.mod_eq_of_lt hb] at this

theorem boolWord_inj {a b : Bool} (h : boolWord a = boolWord b) : a = b := by
  cases a <;> cases b <;> first | rfl | exact absurd h (by decide)

theorem keccak256_length (data : List ℕ) : (keccak256 data).length = 32 := by
  simp [keccak256, seqListNat_eq, natToBytesLE_length]

theorem byteToHex_length (b : ℕ) : (byteToHex b).length = 2 := rfl

theorem bytesToHex_length (bs : List ℕ) : (bytesToHex bs).length = 2 * bs.length := by
  rw [bytesToHex]
  show (bs.foldr (fun b acc => byteToHex b ++ acc) []).length = 2 * bs.length
  induction bs with
  | nil => rfl
  | cons b rest ih => simp [List.foldr_cons, ih, byteToHex_length]; ring

set_option maxRecDepth 40000

theorem ratTrunc_natCast (n : ℕ) : ratTrunc (n : ℚ) = (n : ℤ) := by
  have := ratTrunc_intCast (n : ℤ)
  rwa [Int.cast_natCast] at this

/- ==================== digit-count lemmas ==================== -/

theorem decDigitsAux_pos (f n : ℕ) : 1 ≤ decDigitsAux f n := by
  cases f with
  | zero => exact le_refl 1
  | succ f =>
    simp only [decDigitsAux]
    split <;> omega

theorem decDigitsAux_le_iff :
    ∀ (f n p : ℕ), 1 ≤ p → n < 10 ^ f → (decDigitsAux f n ≤ p ↔ n < 10 ^ p) := by
  intro f
  induction f with
  | zero =>
    intro n p hp hn
    have hn0 : n = 0 := by simpa using hn
    subst hn0
    simp only [decDigitsAux]
    exact ⟨fun _ => pow_pos (by norm_num) p, fun _ => hp⟩
  | succ f ih =>
    intro n p hp hn
    by_cases h10 : n < 10
    · simp only [decDigitsAux, if_pos h10]
      constructor
      · intro _
        calc n < 10 := h10
          _ = 10 ^ 1 := (pow_one 10).symm
          _ ≤ 10 ^ p := Nat.pow_le_pow_right (by norm_num) hp
      · intro _
        exact hp
    · simp only [decDigitsAux, if_neg h10]
      rcases Nat.lt_or_ge p 2 with hp2 | hp2
      · have hp1 : p = 1 := by omega
        subst hp1
        constructor
        · intro hle
          have := decDigitsAux_pos f (n / 10)
          omega
        · intro hlt
          rw [pow_one] at hlt
          omega
      · have hdiv : n / 10 < 10 ^ f := by
          apply Nat.div_lt_of_lt_mul
          calc n < 10 ^ (f + 1) := hn
            _ = 10 * 10 ^ f := by ring
        have ihh := ih (n / 10) (p - 1) (by omega) hdiv
        constructor
        · intro hle
          have h2 : n / 10 < 10 ^ (p - 1) := ihh.mp (by omega)
          have h3 : n < 10 ^ (p - 1) * 10 := (Nat.div_lt_iff_lt_mul (by norm_num)).mp h2
          calc n < 10 ^ (p - 1) * 10 := h3
            _ = 10 ^ p := by
              rw [← pow_succ]
              congr 1
              omega
        · intro hlt
          have h2 : n / 10 < 10 ^ (p - 1) := by
            apply Nat.div_lt_of_lt_mul
            calc n < 10 ^ p := hlt
              _ = 10 * 10 ^ (p - 1) := by
                rw [← pow_succ']
                congr 1
                omega
          have := ihh.mpr h2
          omega

theorem decDigits_le (n p : ℕ) (hp : 1 ≤ p) (hp64 : p ≤ 64) (hn : n < 10 ^ p) :
    decDigits n ≤ p := by
  have hn64 : n < 10 ^ 64 :=
    lt_of_lt_of_le hn (Nat.pow_le_pow_right (by norm_num) hp64)
  exact (decDigitsAux_le_iff 64 n p hp hn64).mpr hn

theorem decDigits_pos (n : ℕ) : 1 ≤ decDigits n := decDigitsAux_pos 64 n

/- ==================== structure unfolding helpers ==================== -/

theorem toInt_mk (s : Bool) (c : ℕ) (e : ℤ) :
    (PyDecimal.mk s c e).toInt =
      (if s then (-1 : ℤ) else 1) *
        ((if 0 ≤ e then c * 10 ^ e.toNat else c / 10 ^ (-e).toNat : ℕ) : ℤ) := rfl

theorem toRat_mk (s : Bool) (c : ℕ) (e : ℤ) :
    (PyDecimal.mk s c e).toRat =
      (if s then (-1 : ℚ) else 1) * (c : ℚ) * (10 : ℚ) ^ e := rfl

/- ==================== divisibility helpers ==================== -/

theorem nat_mod_eq_zero_of_dvd {m n : ℕ} (h : m ∣ n) : n % m = 0 := by
  obtain ⟨u, rfl⟩ := h
  exact Nat.mul_mod_right m u

/- ==================== pyFix lemmas ==================== -/

theorem pyFix_id (x : PyDecimal) (h : x.coeff < 10 ^ 28) : pyFix x = x := by
  have hd : decDigits x.coeff ≤ 28 := decDigits_le _ 28 (by norm_num) (by norm_num) h
  rw [pyFix, if_neg]
  rintro ⟨-, hgt⟩
  simp only [ctxPrec] at hgt
  omega

theorem pyFixRound_exact (s : Bool) (c : ℕ) (e : ℤ) (k : ℕ)
    (hdvd : (10 : ℕ) ^ k ∣ c) :
    pyFixRound ⟨s, c, e⟩ k = ⟨s, c / 10 ^ k, e + k⟩ := by
  have hmod : c % 10 ^ k = 0 := nat_mod_eq_zero_of_dvd hdvd
  have hpos : 0 < 5 * 10 ^ (k - 1) := by positivity
  simp only [pyFixRound]
  rw [if_neg]
  rintro (h1 | h2) <;> omega

theorem pyFix_of_dvd (s : Bool) (c : ℕ) (e : ℤ) (hc : c < 10 ^ 46)
    (hd : (10 : ℕ) ^ 18 ∣ c) :
    ∃ k : ℕ, k ≤ 18 ∧ 10 ^ k ∣ c ∧ pyFix ⟨s, c, e⟩ = ⟨s, c / 10 ^ k, e + k⟩ := by
  have hL : decDigits c ≤ 46 := decDigits_le _ 46 (by norm_num) (by norm_num) hc
  by_cases h : c ≠ 0 ∧ 28 < decDigits c
  · have hdk : (10 : ℕ) ^ (decDigits c - 28) ∣ c :=
      dvd_trans (pow_dvd_pow 10 (by omega)) hd
    refine ⟨decDigits c - 28, by omega, hdk, ?_⟩
    rw [pyFix]
    simp only [ctxPrec]
    rw [if_pos h, pyFixRound_exact s c e _ hdk]
  · refine ⟨0, by norm_num, by simpa using one_dvd c, ?_⟩
    rw [pyFix]
    simp only [ctxPrec]
    rw [if_neg h]
    simp

/- ==================== from_decimal characterization ==================== -/

theorem pyMul_pow18 (s : Bool) (c : ℕ) (e : ℤ) (hc : c < 10 ^ 28) :
    ∃ k : ℕ, k ≤ 18 ∧ 10 ^ k ∣ c * 10 ^ 18 ∧
      pyMul ⟨s, c, e⟩ dec10pow18 = ⟨s, c * 10 ^ 18 / 10 ^ k, e + k⟩ := by
  have h46 : c * 10 ^ 18 < 10 ^ 46 := by
    calc c * 10 ^ 18 < 10 ^ 28 * 10 ^ 18 :=
      mul_lt_mul_of_pos_right hc (pow_pos (by norm_num) 18)
    _ = 10 ^ 46 := by norm_num
  obtain ⟨k, hk, hkd, hfix⟩ :=
    pyFix_of_dvd (xor s false) (c * 10 ^ 18) (e + 0) h46 (dvd_mul_left _ _)
  refine ⟨k, hk, hkd, ?_⟩
  have hunfold : pyMul ⟨s, c, e⟩ dec10pow18 =
      pyFix ⟨xor s false, c * 10 ^ 18, e + 0⟩ := rfl
  rw [hunfold, hfix]
  simp [Bool.xor_false]

theorem from_decimal_repr (s : Bool) (c : ℕ) (e : ℤ) (hc : c < 10 ^ 28) :
    from_decimal ⟨s, c, e⟩ =
      (if s then (-1 : ℤ) else 1) *
        ((if 0 ≤ e + 18 then c * 10 ^ (e + 18).toNat
          else c / 10 ^ (-(e + 18)).toNat : ℕ) : ℤ) := by
  obtain ⟨k, hk, hkd, hmul⟩ := pyMul_pow18 s c e hc
  have hq : c * 10 ^ 18 / 10 ^ k = c * 10 ^ (18 - k) := by
    have h18 : c * 10 ^ 18 = c * 10 ^ (18 - k) * 10 ^ k := by
      rw [mul_assoc, ← pow_add]
      congr 2
      omega
    rw [h18, Nat.mul_div_cancel _ (pow_pos (by norm_num) k)]
  have hpay : (if 0 ≤ e + (k : ℤ) then
        c * 10 ^ 18 / 10 ^ k * 10 ^ (e + (k : ℤ)).toNat
      else c * 10 ^ 18 / 10 ^ k / 10 ^ (-(e + (k : ℤ))).toNat) =
      (if 0 ≤ e + 18 then c * 10 ^ (e + 18).toNat
        else c / 10 ^ (-(e + 18)).toNat) := by
    by_cases h1 : 0 ≤ e + (k : ℤ)
    · have h2 : (0 : ℤ) ≤ e + 18 := by omega
      rw [if_pos h1, if_pos h2, hq, mul_assoc, ← pow_add]
      congr 2
      omega
    · rw [if_neg h1, hq]
      by_cases h2 : (0 : ℤ) ≤ e + 18
      · rw [if_pos h2]
        have hrw : c * 10 ^ (18 - k) =
            c * 10 ^ (e + 18).toNat * 10 ^ (-(e + (k : ℤ))).toNat := by
          rw [mul_assoc, ← pow_add]
          congr 2
          omega
        rw [hrw, Nat.mul_div_cancel _ (pow_pos (by norm_num) _)]
      · rw [if_neg h2]
        have hrw : (10 : ℕ) ^ (-(e + (k : ℤ))).toNat =
            10 ^ (18 - k) * 10 ^ (-(e + 18)).toNat := by
          rw [← pow_add]
          congr 1
          omega
        rw [hrw, mul_comm c (10 ^ (18 - k))]
        exact Nat.mul_div_mul_left _ _ (pow_pos (by norm_num) (18 - k))
  rw [from_decimal, hmul, toInt_mk, hpay]

/- ==================== floor / ratTrunc on natural divisions ==================== -/

theorem int_floor_natCast_div (a b : ℕ) (hb : 0 < b) :
    ⌊(a : ℚ) / (b : ℚ)⌋ = ((a / b : ℕ) : ℤ) := by
  have hbq : (0 : ℚ) < (b : ℚ) := by exact_mod_cast hb
  have h1 : (a / b : ℕ) * b ≤ a := Nat.div_mul_le_self a b
  have h2 : a < (a / b + 1) * b := by
    have hmod := Nat.div_add_mod a b
    have hlt : a % b < b := Nat.mod_lt a hb
    calc a = b * (a / b) + a % b := hmod.symm
      _ < b * (a / b) + b := by omega
      _ = (a / b + 1) * b := by ring
  rw [Int.floor_eq_iff]
  constructor
  · rw [Int.cast_natCast, le_div_iff₀ hbq]
    exact_mod_cast h1
  · rw [Int.cast_natCast, div_lt_iff₀ hbq]
    exact_mod_cast h2

theorem ratTrunc_natCast_div (a b : ℕ) (hb : 0 < b) :
    ratTrunc ((a : ℚ) / (b : ℚ)) = ((a / b : ℕ) : ℤ) := by
  rw [ratTrunc_nonneg_eq_floor _ (by positivity), int_floor_natCast_div a b hb]

/- ==================== from_decimal = exact truncation (within precision) ==================== -/

theorem from_decimal_eq_ratTrunc (s : Bool) (c : ℕ) (e : ℤ) (hc : c < 10 ^ 28) :
    from_decimal ⟨s, c, e⟩ = ratTrunc ((PyDecimal.mk s c e).toRat * (scaleFactor : ℚ)) := by
  have hval : (PyDecimal.mk s c e).toRat * (scaleFactor : ℚ) =
      (if s then (-1 : ℚ) else 1) * ((c : ℚ) * (10 : ℚ) ^ (e + 18)) := by
    rw [toRat_mk, scaleFactor]
    have h10 : ((10 ^ 18 : ℕ) : ℚ) = (10 : ℚ) ^ (18 : ℤ) := by norm_num
    rw [h10, mul_assoc, mul_assoc, ← zpow_add₀ (by norm_num : (10 : ℚ) ≠ 0)]
  rw [from_decimal_repr s c e hc, hval]
  by_cases h2 : (0 : ℤ) ≤ e + 18
  · rw [if_pos h2]
    have hzp : (10 : ℚ) ^ (e + 18) = ((10 ^ (e + 18).toNat : ℕ) : ℚ) := by
      rw [Nat.cast_pow, Nat.cast_ofNat, ← zpow_natCast]
      congr 1
      omega
    rw [hzp]
    have hcast : (c : ℚ) * ((10 ^ (e + 18).toNat : ℕ) : ℚ) =
        ((c * 10 ^ (e + 18).toNat : ℕ) : ℚ) := by push_cast; ring
    rw [hcast]
    cases s
    · simp only [Bool.false_eq_true, if_false, one_mul]
      rw [ratTrunc_natCast]
    · simp only [if_true, neg_one_mul]
      rw [ratTrunc_neg, ratTrunc_natCast]
  · rw [if_neg h2]
    have hzp : (10 : ℚ) ^ (e + 18) = (((10 ^ (-(e + 18)).toNat : ℕ) : ℚ))⁻¹ := by
      rw [Nat.cast_pow, Nat.cast_ofNat, ← zpow_natCast, ← zpow_neg]
      congr 1
      omega
    rw [hzp]
    have hdiv : (c : ℚ) * (((10 ^ (-(e + 18)).toNat : ℕ) : ℚ))⁻¹ =
        (c : ℚ) / ((10 ^ (-(e + 18)).toNat : ℕ) : ℚ) := by
      rw [div_eq_mul_inv]
    rw [hdiv]
    cases s
    · simp only [Bool.false_eq_true, if_false, one_mul]
      rw [ratTrunc_natCast_div _ _ (pow_pos (by norm_num) _)]
    · simp only [if_true, neg_one_mul]
      rw [ratTrunc_neg, ratTrunc_natCast_div _ _ (pow_pos (by norm_num) _)]

/- ==================== the stripping loop ==================== -/

theorem pyStrip_spec :
    ∀ (f cq : ℕ) (e ideal : ℤ), e ≤ ideal → (ideal - e).toNat ≤ f →
      ∃ t : ℕ, (t : ℤ) ≤ ideal - e ∧ 10 ^ t ∣ cq ∧
        pyStrip f cq e ideal = (cq / 10 ^ t, e + t) ∧
        (e + t = ideal ∨ ¬(10 ∣ cq / 10 ^ t)) := by
  intro f
  induction f with
  | zero =>
    intro cq e ideal hle hf
    refine ⟨0, by omega, by simpa using one_dvd cq, by simp [pyStrip], Or.inl (by omega)⟩
  | succ f ih =>
    intro cq e ideal hle hf
    by_cases hcond : e < ideal ∧ cq % 10 = 0
    · obtain ⟨u, hu⟩ := Nat.dvd_of_mod_eq_zero hcond.2
      obtain ⟨t', ht'le, ht'dvd, ht'eq, ht'stop⟩ :=
        ih (cq / 10) (e + 1) ideal (by omega) (by omega)
      refine ⟨t' + 1, by omega, ?_, ?_, ?_⟩
      · have hu10 : cq / 10 = u := by omega
        rw [hu10] at ht'dvd
        rw [pow_succ, hu, mul_comm (10 ^ t') 10]
        exact mul_dvd_mul_left 10 ht'dvd
      · simp only [pyStrip, if_pos hcond, ht'eq]
        rw [Nat.div_div_eq_div_mul, mul_comm (10 : ℕ) (10 ^ t'), ← pow_succ]
        have hcast : e + 1 + (t' : ℤ) = e + ((t' + 1 : ℕ) : ℤ) := by push_cast; ring
        rw [hcast]
      · rcases ht'stop with h | h
        · left
          push_cast
          omega
        · right
          rwa [Nat.div_div_eq_div_mul, mul_comm (10 : ℕ) (10 ^ t'), ← pow_succ] at h
    · refine ⟨0, by omega, by simpa using one_dvd cq, ?_, ?_⟩
      · simp [pyStrip, if_neg hcond]
      · by_cases he : e < ideal
        · right
          have hm : cq % 10 ≠ 0 := fun h => hcond ⟨he, h⟩
          simp only [pow_zero, Nat.div_one]
          intro hd
          exact hm (nat_mod_eq_zero_of_dvd hd)
        · left
          omega

/- ==================== the division path of to_decimal ==================== -/

theorem pyDiv_pow18 (s : Bool) (c m : ℕ) (hc1 : 0 < c) (hc : c < 10 ^ 28) (hm : m ≤ 18) :
    ∃ (c2 : ℕ) (e2 : ℤ), pyDiv ⟨s, c * 10 ^ m, 0⟩ dec10pow18 = ⟨s, c2, e2⟩ ∧
      (c2 : ℚ) * (10 : ℚ) ^ e2 = (c : ℚ) * (10 : ℚ) ^ ((m : ℤ) - 18) := by
  have h19 : decDigits ((10 : ℕ) ^ 18) = 19 := by decide
  set D := decDigits (c * 10 ^ m) with hD
  have hD1 : 1 ≤ D := decDigits_pos _
  have hDle : D ≤ 28 + m := by
    apply decDigits_le _ _ (by omega) (by omega)
    calc c * 10 ^ m < 10 ^ 28 * 10 ^ m :=
      mul_lt_mul_of_pos_right hc (pow_pos (by norm_num) m)
    _ = 10 ^ (28 + m) := by rw [← pow_add]
  have hcm0 : c * 10 ^ m ≠ 0 := by positivity
  -- the shift and its branch
  have hshift : pyDivShift ⟨s, c * 10 ^ m, 0⟩ dec10pow18 = 48 - (D : ℤ) := by
    show (decDigits ((10 : ℕ) ^ 18) : ℤ) - (decDigits (c * 10 ^ m) : ℤ) + (ctxPrec : ℤ) + 1 =
      48 - (D : ℤ)
    rw [h19, ← hD]
    simp only [ctxPrec]
    push_cast
    ring
  have hshift0 : (0 : ℤ) ≤ 48 - (D : ℤ) := by omega
  set N : ℕ := (48 - (D : ℤ)).toNat with hN
  have hNval : (N : ℤ) = 48 - (D : ℤ) := by omega
  -- the numerator and the exact division
  have hnum : c * 10 ^ m * 10 ^ N = c * 10 ^ (m + N) := by
    rw [mul_assoc, ← pow_add]
  have hmN18 : 18 ≤ m + N := by omega
  have hdvd18 : (10 : ℕ) ^ 18 ∣ c * 10 ^ (m + N) :=
    dvd_trans (pow_dvd_pow 10 hmN18) (dvd_mul_left _ _)
  have hmod0 : c * 10 ^ (m + N) % 10 ^ 18 = 0 := nat_mod_eq_zero_of_dvd hdvd18
  set a : ℕ := m + N - 18 with ha
  have hq : c * 10 ^ (m + N) / 10 ^ 18 = c * 10 ^ a := by
    have hsplit : c * 10 ^ (m + N) = c * 10 ^ a * 10 ^ 18 := by
      rw [mul_assoc, ← pow_add]
      congr 2
      omega
    rw [hsplit, Nat.mul_div_cancel _ (pow_pos (by norm_num) 18)]
  have ha2 : 2 ≤ a := by omega
  -- the strip loop
  obtain ⟨t, htle, htdvd, hteq, htstop⟩ :=
    pyStrip_spec 64 (c * 10 ^ a) ((D : ℤ) - 48) 0 (by omega) (by omega)
  -- t ≥ a in both stop cases
  have hta : a ≤ t := by
    rcases htstop with h | h
    · omega
    · by_contra hlt
      apply h
      have : c * 10 ^ a / 10 ^ t = c * 10 ^ (a - t) := by
        have hsplit : c * 10 ^ a = c * 10 ^ (a - t) * 10 ^ t := by
          rw [mul_assoc, ← pow_add]
          congr 2
          omega
        rw [hsplit, Nat.mul_div_cancel _ (pow_pos (by norm_num) t)]
      rw [this]
      exact dvd_mul_of_dvd_right (dvd_pow_self 10 (by omega)) c
  -- the final coefficient divides c exactly
  have htdvd' : (10 : ℕ) ^ (t - a) ∣ c := by
    have h1 : (10 : ℕ) ^ (t - a) * 10 ^ a ∣ c * 10 ^ a := by
      rw [← pow_add]
      have : t - a + a = t := by omega
      rw [this]
      exact htdvd
    exact (Nat.mul_dvd_mul_iff_right (pow_pos (by norm_num) a)).mp h1
  obtain ⟨c2, hc2⟩ := htdvd'
  have hc2q : c * 10 ^ a / 10 ^ t = c2 := by
    have hsplit : c * 10 ^ a = c2 * 10 ^ t := by
      rw [hc2, mul_comm (10 ^ (t - a)) c2, mul_assoc, ← pow_add]
      congr 2
      omega
    rw [hsplit, Nat.mul_div_cancel _ (pow_pos (by norm_num) t)]
  have hc2lt : c2 < 10 ^ 28 := by
    have hle : c2 ≤ c := by
      rw [hc2]
      exact Nat.le_mul_of_pos_left c2 (pow_pos (by norm_num) _)
    omega
  -- assemble pyDiv
  refine ⟨c2, (D : ℤ) - 48 + t, ?_, ?_⟩
  · rw [pyDiv]
    rw [if_neg (by simpa using hcm0)]
    rw [hshift]
    rw [if_pos hshift0]
    rw [pyDivCore]
    dsimp only [dec10pow18]
    have hnum' : c * 10 ^ m * 10 ^ (48 - (D : ℤ)).toNat = c * 10 ^ (m + N) := by
      rw [← hN, hnum]
    have he : (0 : ℤ) - 0 - (48 - (D : ℤ)) = (D : ℤ) - 48 := by ring
    have hideal : (0 : ℤ) - 0 = 0 := by ring
    rw [hnum', he, hideal]
    rw [if_pos hmod0]
    rw [hq, hteq]
    dsimp only
    rw [hc2q]
    have hxor : xor s false = s := Bool.xor_false s
    rw [hxor]
    exact pyFix_id _ hc2lt
  · -- value preservation
    have hcq : (c : ℚ) = (c2 : ℚ) * (10 : ℚ) ^ (t - a) := by
      rw [hc2]
      push_cast
      ring
    have het : (D : ℤ) - 48 + t = (m : ℤ) - 18 + ((t - a : ℕ) : ℤ) := by omega
    rw [hcq, het, zpow_add₀ (by norm_num : (10 : ℚ) ≠ 0), zpow_natCast]
    ring

/- ==================== ofInt on signed naturals ==================== -/

theorem ofInt_sign_mul (s : Bool) (n : ℕ) (hn : 0 < n) :
    PyDecimal.ofInt ((if s then (-1 : ℤ) else 1) * (n : ℤ)) = ⟨s, n, 0⟩ := by
  cases s
  · show PyDecimal.ofInt (1 * (n : ℤ)) = ⟨false, n, 0⟩
    rw [one_mul]
    show (⟨decide ((n : ℤ) < 0), (n : ℤ).natAbs, 0⟩ : PyDecimal) = ⟨false, n, 0⟩
    simp only [PyDecimal.mk.injEq]
    refine ⟨?_, ?_, trivial⟩
    · simp only [decide_eq_false_iff_not, not_lt]
      positivity
    · simp
  · show PyDecimal.ofInt (-1 * (n : ℤ)) = ⟨true, n, 0⟩
    rw [neg_one_mul]
    show (⟨decide (-(n : ℤ) < 0), (-(n : ℤ)).natAbs, 0⟩ : PyDecimal) = ⟨true, n, 0⟩
    simp only [PyDecimal.mk.injEq]
    refine ⟨?_, ?_, trivial⟩
    · simp only [decide_eq_true_eq]
      omega
    · simp

/- ==================== C2 : the fixed-point round trip ==================== -/

/-- C2 (amended): for every decimal value with at most 18 fractional
digits (coefficient `c`, exponent between `-18` and `0`) that fits in
the default context precision of 28 significant digits, the round trip
`to_decimal (from_decimal x)` returns a decimal numerically equal to
`x`.  Beyond 28 significant digits the context rounding inside the
multiplication breaks the round trip (see the counterexample). -/
theorem fixed_point_round_trip (s : Bool) (c : ℕ) (e : ℤ)
    (hc : c < 10 ^ 28) (he1 : -18 ≤ e) (he2 : e ≤ 0) :
    (to_decimal (from_decimal ⟨s, c, e⟩)).toRat = (PyDecimal.mk s c e).toRat := by
  rcases Nat.eq_zero_or_pos c with hc0 | hc0
  · subst hc0
    have h1 : from_decimal ⟨s, 0, e⟩ = 0 := by
      rw [from_decimal_repr s 0 e hc]
      cases s <;> split <;> simp
    rw [h1]
    have h2 : to_decimal 0 = ⟨false, 0, 0⟩ := by decide
    rw [h2, toRat_mk, toRat_mk]
    simp
  · have hm18 : (e + 18).toNat ≤ 18 := by omega
    have hfd : from_decimal ⟨s, c, e⟩ =
        (if s then (-1 : ℤ) else 1) * ((c * 10 ^ (e + 18).toNat : ℕ) : ℤ) := by
      rw [from_decimal_repr s c e hc, if_pos (by omega : (0 : ℤ) ≤ e + 18)]
    rw [hfd, to_decimal, ofInt_sign_mul s _ (by positivity)]
    obtain ⟨c2, e2, hdiv, hval⟩ := pyDiv_pow18 s c (e + 18).toNat hc0 hc hm18
    rw [hdiv, toRat_mk, toRat_mk]
    have hee : ((e + 18).toNat : ℤ) - 18 = e := by omega
    rw [hee] at hval
    rw [mul_assoc, mul_assoc, hval]

/- ==================== C5 : truncation within the context precision ==================== -/

/-- C5 (amended): for every decimal value within the default context
precision of 28 significant digits and with more than 18 fractional
digits (exponent below `-18`), `from_decimal` returns exactly the
truncation toward zero of `x * 10^18`: the digits beyond the 18th
fractional place are dropped, never rounded. -/
theorem from_decimal_truncates (s : Bool) (c : ℕ) (e : ℤ)
    (hc : c < 10 ^ 28) (he : e < -18) :
    from_decimal ⟨s, c, e⟩ = ratTrunc ((PyDecimal.mk s c e).toRat * (scaleFactor : ℚ)) :=
  from_decimal_eq_ratTrunc s c e hc

/-- Witness for C5 at the value 0.123456789012345678901 (21 fractional
digits, tail digits 901): the tail is dropped by truncation. -/
theorem from_decimal_truncates_witness :
    (123456789012345678901 : ℕ) < 10 ^ 28 ∧ (-21 : ℤ) < -18 ∧
    from_decimal ⟨false, 123456789012345678901, -21⟩ =
      ratTrunc ((PyDecimal.mk false 123456789012345678901 (-21)).toRat * (scaleFactor : ℚ)) ∧
    from_decimal ⟨false, 123456789012345678901, -21⟩ = 123456789012345678 :=
  ⟨by norm_num, by norm_num,
    from_decimal_truncates false 123456789012345678901 (-21) (by norm_num) (by norm_num),
    by decide⟩

/-- The exact truncation reference value for the C5 counterexample. -/
theorem ratTrunc_c5_value :
    ratTrunc ((PyDecimal.mk false 123456789012345678901234567899 (-20)).toRat *
      (scaleFactor : ℚ)) = 1234567890123456789012345678 := by
  have hval : (PyDecimal.mk false 123456789012345678901234567899 (-20)).toRat *
      (scaleFactor : ℚ) = (123456789012345678901234567899 : ℚ) / (100 : ℚ) := by
    rw [toRat_mk, scaleFactor]
    norm_num
  rw [hval]
  have h := ratTrunc_natCast_div 123456789012345678901234567899 100 (by norm_num)
  norm_num at h
  exact_mod_cast h

/-- C5 counterexample: the value 1234567890.12345678901234567899 has 30
significant digits and 20 fractional digits (in the original claim
scope); the multiplication inside `from_decimal` rounds it half-even to
28 significant digits before the integer conversion, so the result ends
in ...679 while the truncation of `x * 10^18` ends in ...678 — the
program rounds rather than truncates here. -/
theorem from_decimal_rounds_counterexample :
    from_decimal ⟨false, 123456789012345678901234567899, -20⟩ =
      1234567890123456789012345679 ∧
    ratTrunc ((PyDecimal.mk false 123456789012345678901234567899 (-20)).toRat *
      (scaleFactor : ℚ)) = 1234567890123456789012345678 ∧
    from_decimal ⟨false, 123456789012345678901234567899, -20⟩ ≠
      ratTrunc ((PyDecimal.mk false 123456789012345678901234567899 (-20)).toRat *
        (scaleFactor : ℚ)) := by
  refine ⟨by decide, ratTrunc_c5_value, ?_⟩
  rw [ratTrunc_c5_value]
  decide

/- ==================== C2 : round trip, witness and counterexample ==================== -/

/-- Witness for C2 at the value 1.5 (coefficient 15, exponent -1): the
round trip reproduces the value, indeed the very representation. -/
theorem fixed_point_round_trip_witness :
    (15 : ℕ) < 10 ^ 28 ∧ (-18 : ℤ) ≤ -1 ∧ (-1 : ℤ) ≤ 0 ∧
    to_decimal (from_decimal ⟨false, 15, -1⟩) = ⟨false, 15, -1⟩ ∧
    (to_decimal (from_decimal ⟨false, 15, -1⟩)).toRat = (PyDecimal.mk false 15 (-1)).toRat :=
  ⟨by norm_num, by norm_num, by norm_num, by decide,
    fixed_point_round_trip false 15 (-1) (by norm_num) (by norm_num) (by norm_num)⟩

/-- C2 counterexample: the value 12345678901.123456789012345678 has 18
fractional digits — inside the original claim scope — but 29
significant digits; the half-even context rounding inside
`from_decimal` makes the round trip return 12345678901.12345678901234568,
a different value. -/
theorem fixed_point_round_trip_counterexample :
    to_decimal (from_decimal ⟨false, 12345678901123456789012345678, -18⟩) =
      ⟨false, 1234567890112345678901234568, -17⟩ ∧
    (PyDecimal.mk false 1234567890112345678901234568 (-17)).toRat ≠
      (PyDecimal.mk false 12345678901123456789012345678 (-18)).toRat := by
  refine ⟨by decide, ?_⟩
  intro h
  rw [toRat_mk, toRat_mk] at h
  simp only [if_neg Bool.false_ne_true, one_mul] at h
  rw [show (-17 : ℤ) = -((17 : ℕ) : ℤ) by norm_num,
    show (-18 : ℤ) = -((18 : ℕ) : ℤ) by norm_num, zpow_neg, zpow_neg,
    zpow_natCast, zpow_natCast, ← div_eq_mul_inv, ← div_eq_mul_inv] at h
  rw [div_eq_div_iff (by positivity) (by positivity)] at h
  norm_num at h

/- ==================== C10 : the stub signer ==================== -/

/-- C10: the `OdysseySigner` of `signer.py` (the stub, a different class
from the one in `signing.py` that the client uses) returns the pair
`("", "")` from `sign_order` for every environment, key and order: it
never produces a real signature or hash. -/
theorem stub_signer_returns_empty_pair :
    ∀ (env : Environment) (key : String) (o : PlaceOrderInput),
      (StubSigner.create env key).sign_order o = ("", "") :=
  fun _ _ _ => rfl

/- ==================== C3 : the message field mapping ==================== -/

/-- C3: the `message_data` built by `sign_order` encodes BUY as 0 and
SELL as 1, sets `maker` to the order subaccount and `taker` always to 0,
encodes each absent optional field as its zero value (`limitPrice` and
`expiration` as 0, `postOnly` and `reduceOnly` as `False`) rather than
omitting it, and carries every field declared by the `Order` struct
schema, in schema order. -/
theorem message_field_mapping (o : PlaceOrderInput) :
    (buildOrderMessage { o with direction := OrderDirection.BUY }).direction = 0 ∧
    (buildOrderMessage { o with direction := OrderDirection.SELL }).direction = 1 ∧
    (buildOrderMessage o).maker = parseIntBase0 o.subaccount ∧
    (buildOrderMessage o).taker = 0 ∧
    (buildOrderMessage { o with limitPrice := none }).limitPrice = 0 ∧
    (buildOrderMessage { o with expiration := none }).expiration = 0 ∧
    (buildOrderMessage { o with postOnly := none }).postOnly = false ∧
    (buildOrderMessage { o with reduceOnly := none }).reduceOnly = false ∧
    (orderEncodedFields (buildOrderMessage o)).map Prod.fst = orderSchemaFieldNames ∧
    (orderEncodedFields (buildOrderMessage o)).length = 14 := by
  refine ⟨rfl, rfl, rfl, rfl, rfl, rfl, rfl, rfl, rfl, rfl⟩

/- ==================== C1 : the regression vector ==================== -/

theorem from_decimal_one : from_decimal (PyDecimal.ofInt 1) = 1000000000000000000 := by
  decide

theorem from_decimal_two : from_decimal (PyDecimal.ofInt 2) = 2000000000000000000 := by
  decide

theorem sampleOrder_eq : sampleOrder = sampleOrderLit := by
  simp only [sampleOrder, PlaceOrderInput.create, Option.map, from_decimal_one,
    from_decimal_two]
  decide

set_option maxHeartbeats 10000000 in
theorem sampleDigest_eq :
    orderDigest Environment.MAINNET sampleOrderLit = sampleDigestBytes := by
  decide

theorem sampleZ_eq : bytesToNatBE sampleDigestBytes = sampleZ := by decide

theorem sampleD_eq : hexStringToNat (stripHexPrefix samplePrivateKey) = sampleD := by
  decide

set_option maxHeartbeats 10000000 in
theorem sampleK_eq : rfc6979K sampleZ sampleD = some sampleK := by decide

set_option maxHeartbeats 4000000 in
theorem samplePoint_eq :
    toAffine (scalarMult sampleK secpGx secpGy) = some (sampleRx, sampleRy) := by
  decide

set_option maxHeartbeats 4000000 in
theorem sampleSign_eq : ecdsaSignRaw sampleZ sampleD = some (sampleR, sampleS, 0) := by
  simp only [ecdsaSignRaw, sampleK_eq, samplePoint_eq, Option.some_bind]
  decide

theorem sample_sign_order :
    sampleSigner.sign_order sampleOrderLit =
      some (expectedOrderSignature, expectedOrderHash) := by
  simp only [OdysseySigner.sign_order, seqListNat_eq, seqNat_eq,
    show sampleSigner.env = Environment.MAINNET from rfl,
    show sampleSigner.private_key = stripHexPrefix samplePrivateKey from rfl,
    sampleDigest_eq, sampleZ_eq, sampleD_eq, sampleSign_eq, Option.map_some']
  decide

/-- C1: for the concrete order of `tests/test_signer.py` — market hash
`0x2227…4305`, instrument hash `0x194a…d8a6`, subaccount 37, LIMIT, BUY,
size `Decimal(1)`, limit price `Decimal(2)`, GTC, nonce 0 — signed under
the MAINNET domain parameters with the test private key,
`OdysseySigner.sign_order` returns exactly the recorded 65-byte
signature and 32-byte unsigned hash of the regression vector (the
signature first and the `0x`-prefixed hash second, as the code returns
them). -/
theorem sign_order_regression_vector :
    sampleSigner.sign_order sampleOrder =
      some (expectedOrderSignature, expectedOrderHash) := by
  rw [sampleOrder_eq]
  exact sample_sign_order

/- ==================== C9 : get_order_hash vs sign_order ==================== -/

/-- C9: `get_order_hash` returns exactly the second component (the
unsigned hash) of `sign_order`, so computing the hash performs the same
encode-hash-sign pipeline as signing; and whenever `sign_order`
succeeds, that second component is the `0x`-prefixed lowercase hex
rendering of the 32-byte digest, a string of length 66. -/
theorem get_order_hash_second_component (s : OdysseySigner) (o : PlaceOrderInput) :
    s.get_order_hash o = (s.sign_order o).map (fun p => p.2) ∧
    ∀ p : String × String, s.sign_order o = some p →
      p.2 = "0x" ++ bytesToHex (orderDigest s.env o) ∧ p.2.length = 66 := by
  refine ⟨rfl, ?_⟩
  intro p hp
  simp only [OdysseySigner.sign_order, seqListNat_eq, seqNat_eq] at hp
  obtain ⟨rsv, -, hf⟩ := Option.map_eq_some'.mp hp
  have h2 : p.2 = "0x" ++ bytesToHex (orderDigest s.env o) := by rw [← hf]
  refine ⟨h2, ?_⟩
  rw [h2, String.length_append, bytesToHex_length]
  have h3 : (orderDigest s.env o).length = 32 := keccak256_length _
  rw [h3]
  rfl

/-- Witness for C9 at the regression-vector inputs. -/
theorem get_order_hash_second_component_witness :
    sampleSigner.get_order_hash sampleOrderLit = some expectedOrderHash ∧
    expectedOrderHash = "0x" ++ bytesToHex (orderDigest sampleSigner.env sampleOrderLit) ∧
    expectedOrderHash.length = 66 := by
  have h := get_order_hash_second_component sampleSigner sampleOrderLit
  have h2 := h.2 (expectedOrderSignature, expectedOrderHash) sample_sign_order
  refine ⟨?_, h2.1, h2.2⟩
  rw [h.1, sample_sign_order]
  rfl

/- ==================== C4 : single-field changes and the hash ==================== -/

/-- C4 counterexample: changing only the `limitPrice` field of a
well-formed order from absent (`None`) to the different value `"0"`
leaves the unsigned hash (and the whole signing result) unchanged,
because the encoder maps both to the zero word — so the claim that every
single-signed-field change changes the hash is false as stated. -/
theorem single_field_change_counterexample :
    sampleOrderNoLimit ≠ sampleOrderZeroLimit ∧
    sampleOrderZeroLimit = { sampleOrderNoLimit with limitPrice := some "0" } ∧
    sampleSigner.sign_order sampleOrderNoLimit =
      sampleSigner.sign_order sampleOrderZeroLimit ∧
    sampleSigner.get_order_hash sampleOrderNoLimit =
      sampleSigner.get_order_hash sampleOrderZeroLimit := by
  have hm : buildOrderMessage sampleOrderNoLimit = buildOrderMessage sampleOrderZeroLimit := by
    decide
  have hd : orderDigest sampleSigner.env sampleOrderNoLimit =
      orderDigest sampleSigner.env sampleOrderZeroLimit := by
    unfold orderDigest eip712Payload orderStructHash orderEncodeData
    rw [hm]
  have hso : sampleSigner.sign_order sampleOrderNoLimit =
      sampleSigner.sign_order sampleOrderZeroLimit := by
    simp only [OdysseySigner.sign_order, seqListNat_eq, seqNat_eq, hd]
  refine ⟨by decide, rfl, hso, ?_⟩
  simp only [OdysseySigner.get_order_hash, hso]

theorem orderEncodeData_unfold (m : OrderMessage) :
    orderEncodeData m =
      keccak256 (strToBytes orderTypeString) ++
        (m.market ++ (word256 m.instrumentType ++ (m.instrumentId ++
          (word256 m.direction ++ (word256 m.maker ++ (word256 m.taker ++
            (word256 m.amount ++ (word256 m.limitPrice ++ (word256 m.expiration ++
              (word256 m.nonce ++ (word256 m.counter ++ (boolWord m.postOnly ++
                (boolWord m.reduceOnly ++ (boolWord m.allOrNothing ++ [])))))))))))))) :=
  rfl

theorem orderEncodeData_inj {m1 m2 : OrderMessage}
    (w1 : m1.wellFormed) (w2 : m2.wellFormed)
    (h : orderEncodeData m1 = orderEncodeData m2) : m1 = m2 := by
  obtain ⟨a1, b1, c1, d1, e1, f1, g1, i1, j1, k1, l1⟩ := w1
  obtain ⟨a2, b2, c2, d2, e2, f2, g2, i2, j2, k2, l2⟩ := w2
  rw [orderEncodeData_unfold, orderEncodeData_unfold] at h
  have h0 := List.append_cancel_left h
  obtain ⟨hmarket, h1⟩ := List.append_inj h0 (by rw [a1, a2])
  obtain ⟨hit, h2⟩ := List.append_inj h1 (by rw [word256_length, word256_length])
  obtain ⟨hinst, h3⟩ := List.append_inj h2 (by rw [b1, b2])
  obtain ⟨hdir, h4⟩ := List.append_inj h3 (by rw [word256_length, word256_length])
  obtain ⟨hmaker, h5⟩ := List.append_inj h4 (by rw [word256_length, word256_length])
  obtain ⟨htaker, h6⟩ := List.append_inj h5 (by rw [word256_length, word256_length])
  obtain ⟨hamount, h7⟩ := List.append_inj h6 (by rw [word256_length, word256_length])
  obtain ⟨hlimit, h8⟩ := List.append_inj h7 (by rw [word256_length, word256_length])
  obtain ⟨hexp, h9⟩ := List.append_inj h8 (by rw [word256_length, word256_length])
  obtain ⟨hnonce, h10⟩ := List.append_inj h9 (by rw [word256_length, word256_length])
  obtain ⟨hcounter, h11⟩ := List.append_inj h10 (by rw [word256_length, word256_length])
  obtain ⟨hpost, h12⟩ := List.append_inj h11 (by rw [boolWord_length, boolWord_length])
  obtain ⟨hreduce, h13⟩ := List.append_inj h12 (by rw [boolWord_length, boolWord_length])
  obtain ⟨haon, -⟩ := List.append_inj h13 (by rw [boolWord_length, boolWord_length])
  cases m1
  cases m2
  dsimp only at *
  simp only [OrderMessage.mk.injEq]
  exact ⟨hmarket, word256_inj c1 c2 hit, hinst, word256_inj d1 d2 hdir,
    word256_inj e1 e2 hmaker, word256_inj f1 f2 htaker, word256_inj g1 g2 hamount,
    word256_inj i1 i2 hlimit, word256_inj j1 j2 hexp, word256_inj k1 k2 hnonce,
    word256_inj l1 l2 hcounter, boolWord_inj hpost, boolWord_inj hreduce,
    boolWord_inj haon⟩

/-- C4 (amended): for well-formed orders, any change that alters the
encoded order message — in particular changing one of size, nonce,
direction or subaccount to a value with a different parsed integer,
while absent `limitPrice` aliases an explicit 0 — changes the encoded
`Order` struct data, the byte string whose keccak-256 is the struct
hash; the unsigned hash can then only coincide if keccak-256 itself
collides on the two encodings. -/
theorem encoded_struct_data_injective (m1 m2 : OrderMessage)
    (w1 : m1.wellFormed) (w2 : m2.wellFormed) (hne : m1 ≠ m2) :
    orderEncodeData m1 ≠ orderEncodeData m2 :=
  fun h => hne (orderEncodeData_inj w1 w2 h)

/-- Witness for C4 (amended): the sample order against the `size`-change
of `test_different_orders_produce_different_hashes`. -/
theorem encoded_struct_data_injective_witness :
    (buildOrderMessage sampleOrderLit).wellFormed ∧
    (buildOrderMessage sampleOrderSize2).wellFormed ∧
    buildOrderMessage sampleOrderLit ≠ buildOrderMessage sampleOrderSize2 ∧
    orderEncodeData (buildOrderMessage sampleOrderLit) ≠
      orderEncodeData (buildOrderMessage sampleOrderSize2) :=
  ⟨by decide, by decide, by decide,
    encoded_struct_data_injective _ _ (by decide) (by decide) (by decide)⟩

/- ==================== C7 : signed operations without a key ==================== -/

/-- C7 counterexample: a client constructed with no private key and no
API key fails `place_order` with `APIKeyError`, not with the
missing-private-key error — the API-key check runs first, so the claim
as stated (signed operations fail with the signing-unavailable error
whenever no private key was configured) does not hold for this client. -/
theorem place_order_no_keys_counterexample :
    noKeyClient.place_order sampleOrderLit =
      Except.error (OdysseyError.APIKeyError "No API key provided") ∧
    (Except.error (OdysseyError.APIKeyError "No API key provided") :
        Except OdysseyError (Option (PlaceOrderInput × SignatureInput))) ≠
      Except.error (OdysseyError.PrivateKeyError "No private key provided") := by
  refine ⟨rfl, ?_⟩
  intro h
  injection h with h2
  cases h2

/-- C7 (amended): provided an API key is configured, a client
constructed without a (truthy) private key fails `place_order` with
`PrivateKeyError` — the code's realization of `SigningUnavailable` —
never succeeds (so never falls back to a default or zero key), and the
client remains usable for unsigned operations such as `cancel_order`,
which performs no key check. -/
theorem place_order_missing_private_key (c : OdysseyClient) (o : PlaceOrderInput)
    (hapi : pyTruthy c.api_key = true) (hkey : pyTruthy c.private_key = false) :
    c.place_order o = Except.error (OdysseyError.PrivateKeyError "No private key provided") ∧
    (∀ r, c.place_order o ≠ Except.ok r) ∧
    (∀ (oh : String) (r : Option Bool),
      c.cancel_order oh (Except.ok r) = Except.ok (r.getD false)) := by
  have h1 : c.place_order o =
      Except.error (OdysseyError.PrivateKeyError "No private key provided") := by
    simp only [OdysseyClient.place_order, hapi, hkey]
    rfl
  refine ⟨h1, ?_, fun oh r => rfl⟩
  intro r hr
  rw [h1] at hr
  cases hr

/-- Witness for C7 (amended) at a concrete API-key-only client. -/
theorem place_order_missing_private_key_witness :
    pyTruthy apiOnlyClient.api_key = true ∧
    pyTruthy apiOnlyClient.private_key = false ∧
    apiOnlyClient.place_order sampleOrderLit =
      Except.error (OdysseyError.PrivateKeyError "No private key provided") ∧
    apiOnlyClient.cancel_order "0xabc" (Except.ok (some true)) = Except.ok true := by
  refine ⟨rfl, rfl, ?_, ?_⟩
  · exact (place_order_missing_private_key apiOnlyClient sampleOrderLit rfl rfl).1
  · exact (place_order_missing_private_key apiOnlyClient sampleOrderLit rfl rfl).2.2
      "0xabc" (some true)

/- ==================== C8 : connect failure is surfaced, manager retryable ==================== -/

/-- C8: when the session is uninitialized and the connection attempt
fails, the triggering `subscribe` call receives exactly the transport's
error (nothing is swallowed), the session slot remains empty, and a
subsequent `subscribe` call attempts establishment again — and succeeds
if the transport now connects. -/
theorem subscribe_failure_surfaced_retryable (st : GQLState) (e : String) (sid : ℕ)
    (h : st.ws_session = none) :
    (subscribeStep st (Except.error e)).1 = Except.error e ∧
    (subscribeStep st (Except.error e)).2.ws_session = none ∧
    (subscribeStep st (Except.error e)).2.connectAttempts = st.connectAttempts + 1 ∧
    (subscribeStep (subscribeStep st (Except.error e)).2 (Except.ok sid)).1 = Except.ok sid ∧
    (subscribeStep (subscribeStep st (Except.error e)).2 (Except.ok sid)).2.ws_session = some sid ∧
    (subscribeStep (subscribeStep st (Except.error e)).2
        (Except.ok sid)).2.connectAttempts = st.connectAttempts + 2 := by
  simp [subscribeStep, h]

/-- Witness for C8 at a fresh manager with a failing then succeeding
transport. -/
theorem subscribe_failure_surfaced_retryable_witness :
    ({ ws_session := none, connectAttempts := 0 } : GQLState).ws_session = none ∧
    (subscribeStep { ws_session := none, connectAttempts := 0 } (Except.error "boom")).1 =
      Except.error "boom" ∧
    (subscribeStep (subscribeStep { ws_session := none, connectAttempts := 0 }
        (Except.error "boom")).2 (Except.ok 7)).1 = Except.ok 7 := by
  have h := subscribe_failure_surfaced_retryable
    { ws_session := none, connectAttempts := 0 } "boom" 7 rfl
  exact ⟨rfl, h.1, h.2.2.2.1⟩

/- ==================== C6 : single-flight session establishment ==================== -/

theorem sessInv_init : SessInv sessInit := by
  refine ⟨Nat.zero_le 1, ?_, ?_, ?_, ?_, fun _ _ => rfl⟩ <;> intro i <;> simp [sessInit]

theorem sessInv_step {s s' : SessState} (inv : SessInv s) (st : SessStep s s') :
    SessInv s' := by
  obtain ⟨hc, hlock, hconn, hsess, hdone, hzero⟩ := inv
  cases st with
  | acquire i hstart hfree =>
    refine ⟨hc, ?_, ?_, hsess, ?_, ?_⟩
    · intro j hj
      dsimp only at hj ⊢
      by_cases h : j = i
      · rw [h]
      · rw [if_neg h] at hj
        rw [hlock j hj] at hfree
        cases hfree
    · intro j hj
      dsimp only at hj ⊢
      by_cases h : j = i
      · rw [if_pos h] at hj; cases hj
      · rw [if_neg h] at hj
        rw [(hconn j hj).1] at hfree
        cases hfree
    · intro j sid hj
      dsimp only at hj ⊢
      by_cases h : j = i
      · rw [if_pos h] at hj; cases hj
      · rw [if_neg h] at hj; exact hdone j sid hj
    · intro hs hnc
      dsimp only at hs hnc ⊢
      refine hzero hs ?_
      intro j hj
      have hj2 := hnc j
      by_cases h : j = i
      · subst h
        rw [hstart] at hj
        cases hj
      · rw [if_neg h] at hj2
        exact hj2 hj
  | checkActive i sid hti hs =>
    refine ⟨hc, ?_, ?_, hsess, ?_, ?_⟩
    · intro j hj
      dsimp only at hj ⊢
      by_cases h : j = i
      · rw [if_pos h] at hj; cases hj
      · rw [if_neg h] at hj
        have h1 := hlock j hj
        rw [hlock i hti] at h1
        injection h1 with h1
        exact absurd h1.symm h
    · intro j hj
      dsimp only at hj ⊢
      by_cases h : j = i
      · rw [if_pos h] at hj; cases hj
      · rw [if_neg h] at hj
        have h1 := (hconn j hj).1
        rw [hlock i hti] at h1
        injection h1 with h1
        exact absurd h1.symm h
    · intro j sid' hj
      dsimp only at hj ⊢
      by_cases h : j = i
      · rw [if_pos h] at hj
        injection hj with hj2
        rw [← hj2]
        exact hs
      · rw [if_neg h] at hj; exact hdone j sid' hj
    · intro hs' _
      dsimp only at hs'
      rw [hs] at hs'
      cases hs'
  | checkNone i hti hs =>
    have hnoc : ∀ j, s.tasks j ≠ TaskPc.connecting := by
      intro j hj
      have h1 := (hconn j hj).1
      rw [hlock i hti] at h1
      injection h1 with h1
      rw [← h1, hti] at hj
      cases hj
    have hzero' : s.connects = 0 := hzero hs hnoc
    refine ⟨?_, ?_, ?_, ?_, ?_, ?_⟩
    · dsimp only; omega
    · intro j hj
      dsimp only at hj ⊢
      by_cases h : j = i
      · rw [if_pos h] at hj; cases hj
      · rw [if_neg h] at hj
        exact hlock j hj
    · intro j hj
      dsimp only at hj ⊢
      by_cases h : j = i
      · subst h
        exact ⟨hlock j hti, hs, by omega⟩
      · rw [if_neg h] at hj
        exact absurd hj (hnoc j)
    · intro sid hsid
      dsimp only at hsid ⊢
      rw [hs] at hsid
      cases hsid
    · intro j sid hj
      dsimp only at hj ⊢
      by_cases h : j = i
      · rw [if_pos h] at hj; cases hj
      · rw [if_neg h] at hj
        have h2 := hdone j sid hj
        rw [hs] at h2
        cases h2
    · intro _ hnc
      dsimp only at hnc
      have h2 := hnc i
      rw [if_pos rfl] at h2
      exact absurd rfl h2
  | finishConnect i hti =>
    obtain ⟨hli, hsn, hc1⟩ := hconn i hti
    refine ⟨?_, ?_, ?_, ?_, ?_, ?_⟩
    · dsimp only; omega
    · intro j hj
      dsimp only at hj ⊢
      by_cases h : j = i
      · rw [if_pos h] at hj; cases hj
      · rw [if_neg h] at hj
        have h1 := hlock j hj
        rw [hli] at h1
        injection h1 with h1
        rw [← h1, hti] at hj
        cases hj
    · intro j hj
      dsimp only at hj ⊢
      by_cases h : j = i
      · rw [if_pos h] at hj; cases hj
      · rw [if_neg h] at hj
        have h1 := (hconn j hj).1
        rw [hli] at h1
        injection h1 with h1
        exact absurd h1.symm h
    · intro sid hsid
      dsimp only at hsid ⊢
      exact hc1
    · intro j sid hj
      dsimp only at hj ⊢
      by_cases h : j = i
      · rw [if_pos h] at hj
        injection hj with hj2
        rw [hj2]
      · rw [if_neg h] at hj
        have h2 := hdone j sid hj
        rw [hsn] at h2
        cases h2
    · intro hs' _
      dsimp only at hs'
      cases hs'

theorem sessInv_reachable {s : SessState} (h : SessReachable s) : SessInv s := by
  induction h with
  | refl => exact sessInv_init
  | tail _ hstep ih => exact sessInv_step ih hstep

/-- C6: in every interleaving of any number of concurrent `subscribe`
calls started against an uninitialized session manager, at most one
`connect_async` call is ever made (the check-then-connect runs under the
mutual-exclusion lock, held across the await), and every subscriber that
completes has exactly one establishment on record and holds the one
established session — no caller ever creates a second underlying
connection. -/
theorem concurrent_subscribe_single_flight (s : SessState) (h : SessReachable s) :
    s.connects ≤ 1 ∧
    ∀ i sid, s.tasks i = TaskPc.done sid → s.connects = 1 ∧ s.session = some sid := by
  obtain ⟨hc, -, -, hsess, hdone, -⟩ := sessInv_reachable h
  exact ⟨hc, fun i sid hd => ⟨hsess sid (hdone i sid hd), hdone i sid hd⟩⟩

theorem sessDemo_reachable : SessReachable sessDemo5 := by
  have s1 : SessStep sessInit sessDemo1 := SessStep.acquire sessInit 0 rfl rfl
  have s2 : SessStep sessDemo1 sessDemo2 := SessStep.checkNone sessDemo1 0 rfl rfl
  have s3 : SessStep sessDemo2 sessDemo3 := SessStep.finishConnect sessDemo2 0 rfl
  have s4 : SessStep sessDemo3 sessDemo4 := SessStep.acquire sessDemo3 1 rfl rfl
  have s5 : SessStep sessDemo4 sessDemo5 := SessStep.checkActive sessDemo4 1 1 rfl rfl
  exact .tail (.tail (.tail (.tail (.tail .refl s1) s2) s3) s4) s5

/-- Witness for C6 on a concrete two-subscriber interleaving: one
connect, both subscribers finished on the same session. -/
theorem concurrent_subscribe_single_flight_witness :
    SessReachable sessDemo5 ∧
    sessDemo5.tasks 0 = TaskPc.done 1 ∧ sessDemo5.tasks 1 = TaskPc.done 1 ∧
    sessDemo5.connects ≤ 1 ∧ sessDemo5.connects = 1 ∧ sessDemo5.session = some 1 := by
  refine ⟨sessDemo_reachable, rfl, rfl, ?_, ?_, ?_⟩
  · exact (concurrent_subscribe_single_flight sessDemo5 sessDemo_reachable).1
  · exact ((concurrent_subscribe_single_flight sessDemo5 sessDemo_reachable).2 1 1 rfl).1
  · exact ((concurrent_subscribe_single_flight sessDemo5 sessDemo_reachable).2 1 1 rfl).2
